import Mathlib

/-!
Verification of the core signal-analysis and tuning-inference pipeline of
`scripts/build_dataset.py`: stable-window selection, autocorrelation pitch
tracking, spectral partial extraction, octave correction by harmonic-grid
fitting, and just-intonation candidate search.  Python floats are modelled as
real numbers; fallible functions return `Except`.
-/

open Real List

namespace Microrimba

/-- `MIN_F0_HZ` from the source: lower bound of the valid f0 range. -/
def MIN_F0_HZ : ℝ := 40

/-- `MAX_F0_HZ` from the source: upper bound of the valid f0 range. -/
def MAX_F0_HZ : ℝ := 2000

/-- `PROMINENCE_DB` from the source. -/
def PROMINENCE_DB : ℝ := 15

/-- `MAX_PEAKS` from the source. -/
def MAX_PEAKS : ℕ := 60

/-- `SUMMARY_PEAKS` from the source. -/
def SUMMARY_PEAKS : ℕ := 12

/-! ## Tuning inference: register (build_dataset.py lines 700–704) -/

/-- `octave_abs = math.floor(math.log2(f0 / f_ref))`. -/
noncomputable def registerOctaveAbs (f0 f_ref : ℝ) : ℤ :=
  ⌊Real.logb 2 (f0 / f_ref)⌋

/-- `within = f0 / (f_ref * (2 ** octave_abs))`. -/
noncomputable def registerWithinOctave (f0 f_ref : ℝ) : ℝ :=
  f0 / (f_ref * (2 : ℝ) ^ registerOctaveAbs f0 f_ref)

/-- C1: for positive `f0` and reference `f_ref`, the register fields satisfy
`1 ≤ within_octave_ratio < 2` and `f0 = f_ref * 2^octave_abs * within_octave_ratio`
(exactly, in the real-number model of the floating computation). -/
theorem register_invariant (f0 f_ref : ℝ) (hf0 : 0 < f0) (href : 0 < f_ref) :
    1 ≤ registerWithinOctave f0 f_ref ∧ registerWithinOctave f0 f_ref < 2 ∧
      f0 = f_ref * (2 : ℝ) ^ registerOctaveAbs f0 f_ref * registerWithinOctave f0 f_ref := by
  have hx : 0 < f0 / f_ref := div_pos hf0 href
  set m : ℤ := registerOctaveAbs f0 f_ref with hm
  have h2pos : (0 : ℝ) < (2 : ℝ) ^ m := zpow_pos (by norm_num) m
  have hxeq : (2 : ℝ) ^ (Real.logb 2 (f0 / f_ref)) = f0 / f_ref :=
    Real.rpow_logb (by norm_num) (by norm_num) hx
  have hlow : (2 : ℝ) ^ m ≤ f0 / f_ref := by
    have : (2 : ℝ) ^ ((m : ℝ)) ≤ (2 : ℝ) ^ (Real.logb 2 (f0 / f_ref)) :=
      Real.rpow_le_rpow_of_exponent_le (by norm_num) (Int.floor_le _)
    rwa [hxeq, Real.rpow_intCast] at this
  have hhigh : f0 / f_ref < (2 : ℝ) ^ (m + 1) := by
    have : (2 : ℝ) ^ (Real.logb 2 (f0 / f_ref)) < (2 : ℝ) ^ (((m : ℝ) + 1)) :=
      Real.rpow_lt_rpow_of_exponent_lt (by norm_num) (Int.lt_floor_add_one _)
    rw [hxeq] at this
    have hcast : ((m : ℝ) + 1) = (((m + 1 : ℤ) : ℝ)) := by push_cast; ring
    rw [hcast, Real.rpow_intCast] at this
    exact this
  have hw : registerWithinOctave f0 f_ref = (f0 / f_ref) / (2 : ℝ) ^ m := by
    rw [registerWithinOctave, ← hm, div_div]
  refine ⟨?_, ?_, ?_⟩
  · rw [hw, le_div_iff₀ h2pos, one_mul]
    exact hlow
  · rw [hw, div_lt_iff₀ h2pos]
    calc f0 / f_ref < (2 : ℝ) ^ (m + 1) := hhigh
      _ = 2 * (2 : ℝ) ^ m := by rw [zpow_add_one₀ (by norm_num : (2:ℝ) ≠ 0) m]; ring
  · rw [hw]
    field_simp

/-- Witness for C1 at `f0 = 3`, `f_ref = 1`. -/
theorem register_invariant_witness :
    1 ≤ registerWithinOctave 3 1 ∧ registerWithinOctave 3 1 < 2 ∧
      (3 : ℝ) = 1 * (2 : ℝ) ^ registerOctaveAbs 3 1 * registerWithinOctave 3 1 :=
  register_invariant 3 1 (by norm_num) (by norm_num)

/-! ## Spectral peaks and harmonic-grid fit (build_dataset.py lines 292–306) -/

/-- One spectral peak entry as produced by `_analyze_partials`. -/
structure SpectralPeak where
  hz : ℝ
  rel_amp_db : ℝ
  peak_confidence : ℝ
  harmonic_index_guess : Option ℤ

/-- Python 3 `round`: round half to even (banker's rounding), otherwise nearest. -/
noncomputable def pyRound (x : ℝ) : ℤ :=
  if Int.fract x = 1 / 2 then (if Even ⌊x⌋ then ⌊x⌋ else ⌊x⌋ + 1) else round x

/-- The per-peak alignment test inside `_harmonic_grid_fit_score`:
`harmonic_idx = round(peak_hz / f0)`, keep when `harmonic_idx ≥ 1` and
`abs(peak_hz - target) / max(target, 1e-9) ≤ tol`. -/
noncomputable def harmonicAligned (f0_hz tol : ℝ) (peak : SpectralPeak) : Prop :=
  1 ≤ pyRound (peak.hz / f0_hz) ∧
    |peak.hz - (pyRound (peak.hz / f0_hz) : ℝ) * f0_hz| /
      max ((pyRound (peak.hz / f0_hz) : ℝ) * f0_hz) (1 / 10 ^ 9) ≤ tol

noncomputable instance (f0_hz tol : ℝ) (peak : SpectralPeak) :
    Decidable (harmonicAligned f0_hz tol peak) :=
  Classical.propDecidable _

/-- `_harmonic_grid_fit_score(summary_peaks, f0_hz, tol=0.03, k_max=SUMMARY_PEAKS)`. -/
noncomputable def harmonicGridFitScore (summary_peaks : List SpectralPeak) (f0_hz : ℝ)
    (tol : ℝ := 3 / 100) (k_max : ℕ := SUMMARY_PEAKS) : ℝ :=
  @ite _ (summary_peaks = [] ∨ f0_hz ≤ 0) (Classical.propDecidable _) 0
    (let k := min k_max summary_peaks.length
     (((summary_peaks.take k).filter fun peak =>
        decide (harmonicAligned f0_hz tol peak)).length : ℝ) / ((max k 1 : ℕ) : ℝ))

/-- C9: the harmonic-grid fit score is total and bounded: always in `[0, 1]`,
and exactly `0` on an empty peak list or a non-positive candidate fundamental. -/
theorem harmonic_fit_score_bounded (summary_peaks : List SpectralPeak) (f0_hz : ℝ) :
    0 ≤ harmonicGridFitScore summary_peaks f0_hz ∧
      harmonicGridFitScore summary_peaks f0_hz ≤ 1 ∧
      ((summary_peaks = [] ∨ f0_hz ≤ 0) → harmonicGridFitScore summary_peaks f0_hz = 0) := by
  unfold harmonicGridFitScore
  split_ifs with h
  · simp
  · refine ⟨by positivity, ?_, fun hc => absurd hc h⟩
    apply div_le_one_of_le₀
    · have h1 : ((summary_peaks.take (min SUMMARY_PEAKS summary_peaks.length)).filter
          fun peak => decide (harmonicAligned f0_hz (3 / 100) peak)).length ≤
          min SUMMARY_PEAKS summary_peaks.length := by
        calc ((summary_peaks.take (min SUMMARY_PEAKS summary_peaks.length)).filter
              fun peak => decide (harmonicAligned f0_hz (3 / 100) peak)).length
            ≤ (summary_peaks.take (min SUMMARY_PEAKS summary_peaks.length)).length :=
              List.length_filter_le _ _
          _ ≤ min SUMMARY_PEAKS summary_peaks.length := by
              rw [List.length_take]
              exact min_le_left _ _
      have h2 : min SUMMARY_PEAKS summary_peaks.length ≤
          max (min SUMMARY_PEAKS summary_peaks.length) 1 := le_max_left _ _
      exact_mod_cast le_trans h1 h2
    · positivity

/-- Witness for C9 instantiated at the empty peak list. -/
theorem harmonic_fit_score_bounded_witness :
    0 ≤ harmonicGridFitScore [] 1 ∧ harmonicGridFitScore [] 1 ≤ 1 ∧
      ((([] : List SpectralPeak) = [] ∨ (1 : ℝ) ≤ 0) → harmonicGridFitScore [] 1 = 0) :=
  harmonic_fit_score_bounded [] 1

/-! ## Octave corrector (build_dataset.py lines 309–333) -/

/-- One scored candidate `(cand, fit, cents_shift, in_range)` from
`_correct_octave_by_harmonic_fit`. -/
structure ScoredCand where
  cand : ℝ
  fit : ℝ
  cents_shift : ℝ
  in_range : Bool

/-- The correction record `{original_f0_hz, corrected_f0_hz, harmonic_fit_before,
harmonic_fit_after}`. -/
structure OctaveCorrection where
  original_f0_hz : ℝ
  corrected_f0_hz : ℝ
  harmonic_fit_before : ℝ
  harmonic_fit_after : ℝ

/-- Score one candidate frequency as in the loop of `_correct_octave_by_harmonic_fit`. -/
noncomputable def scoreCandidate (preliminary_f0_hz : ℝ) (summary_peaks : List SpectralPeak)
    (cand : ℝ) : ScoredCand :=
  { cand := cand
    fit := harmonicGridFitScore summary_peaks cand
    cents_shift :=
      |1200 * Real.logb 2 (max cand (1 / 10 ^ 9) / max preliminary_f0_hz (1 / 10 ^ 9))|
    in_range := decide (MIN_F0_HZ ≤ cand ∧ cand ≤ MAX_F0_HZ) }

/-- The three candidates `[f0, f0/2, f0*2]`, scored. -/
noncomputable def octaveScored (preliminary_f0_hz : ℝ) (summary_peaks : List SpectralPeak) :
    List ScoredCand :=
  [preliminary_f0_hz, preliminary_f0_hz / 2, preliminary_f0_hz * 2].map
    (scoreCandidate preliminary_f0_hz summary_peaks)

/-- The Python sort key is `(fit, in_range, -cents_shift)` compared lexicographically
(`bool` ordered as the integers 0 < 1). -/
noncomputable def octaveSortKey (c : ScoredCand) : ℝ ×ₗ Bool ×ₗ ℝ :=
  toLex (c.fit, toLex (c.in_range, -c.cents_shift))

/-- `scored.sort(key=..., reverse=True)` orders by non-increasing key; a stable sort
with this "may precede" relation reproduces it. -/
def octaveDescLE (a b : ScoredCand) : Prop := octaveSortKey b ≤ octaveSortKey a

instance : IsTotal ScoredCand octaveDescLE :=
  ⟨fun a b => (le_total (octaveSortKey a) (octaveSortKey b)).symm⟩

instance : IsTrans ScoredCand octaveDescLE :=
  ⟨fun _ _ _ hab hbc => le_trans hbc hab⟩

noncomputable instance : DecidableRel octaveDescLE :=
  fun _ _ => Classical.propDecidable _

/-- The candidate list after the descending stable sort. -/
noncomputable def octaveSorted (preliminary_f0_hz : ℝ) (summary_peaks : List SpectralPeak) :
    List ScoredCand :=
  (octaveScored preliminary_f0_hz summary_peaks).insertionSort octaveDescLE

/-- `scored[0]`: the selected candidate. -/
noncomputable def octaveBest (preliminary_f0_hz : ℝ) (summary_peaks : List SpectralPeak) :
    ScoredCand :=
  (octaveSorted preliminary_f0_hz summary_peaks).headD
    (scoreCandidate preliminary_f0_hz summary_peaks preliminary_f0_hz)

/-- `_correct_octave_by_harmonic_fit`: returns
`(f0, fit, correction record or none, accepted)`. -/
noncomputable def correctOctaveByHarmonicFit (preliminary_f0_hz : ℝ)
    (summary_peaks : List SpectralPeak) : ℝ × ℝ × Option OctaveCorrection × Bool :=
  let best := octaveBest preliminary_f0_hz summary_peaks
  let before_fit := harmonicGridFitScore summary_peaks preliminary_f0_hz
  let ratio := max best.cand (1 / 10 ^ 9) / max preliminary_f0_hz (1 / 10 ^ 9)
  if (0.9 < |Real.logb 2 ratio| ∧ |Real.logb 2 ratio| < 1.1) ∧
      0.15 ≤ best.fit - before_fit ∧ MIN_F0_HZ ≤ best.cand ∧ best.cand ≤ MAX_F0_HZ then
    (best.cand, best.fit, some ⟨preliminary_f0_hz, best.cand, before_fit, best.fit⟩, true)
  else
    (preliminary_f0_hz, before_fit, none, false)

lemma octaveSorted_ne_nil (p : ℝ) (peaks : List SpectralPeak) :
    octaveSorted p peaks ≠ [] := by
  have h : (octaveSorted p peaks).length = 3 := by
    rw [octaveSorted, List.length_insertionSort]
    rfl
  intro hnil
  rw [hnil] at h
  simp at h

lemma octaveBest_mem (p : ℝ) (peaks : List SpectralPeak) :
    octaveBest p peaks ∈ octaveScored p peaks := by
  have hne := octaveSorted_ne_nil p peaks
  have hmem : octaveBest p peaks ∈ octaveSorted p peaks := by
    cases hs : octaveSorted p peaks with
    | nil => exact absurd hs hne
    | cons a t =>
        rw [octaveBest, hs]
        exact List.mem_cons_self a t
  rw [octaveSorted] at hmem
  exact (List.mem_insertionSort octaveDescLE).mp hmem

lemma octaveBest_key_max (p : ℝ) (peaks : List SpectralPeak) :
    ∀ c ∈ octaveScored p peaks, octaveSortKey c ≤ octaveSortKey (octaveBest p peaks) := by
  intro c hc
  have hsorted : (octaveSorted p peaks).Sorted octaveDescLE :=
    List.sorted_insertionSort octaveDescLE _
  have hc' : c ∈ octaveSorted p peaks := by
    rw [octaveSorted]
    exact (List.mem_insertionSort octaveDescLE).mpr hc
  have hne := octaveSorted_ne_nil p peaks
  cases hs : octaveSorted p peaks with
  | nil => exact absurd hs hne
  | cons a t =>
      have hbest : octaveBest p peaks = a := by rw [octaveBest, hs]; rfl
      rw [hs] at hc' hsorted
      rcases List.mem_cons.mp hc' with rfl | ht
      · rw [hbest]
      · rw [hbest]
        exact List.rel_of_sorted_cons hsorted c ht

lemma octaveBest_cand_cases (p : ℝ) (peaks : List SpectralPeak) :
    (octaveBest p peaks).cand = p ∨ (octaveBest p peaks).cand = p / 2 ∨
      (octaveBest p peaks).cand = p * 2 := by
  have h := octaveBest_mem p peaks
  rw [octaveScored] at h
  simp only [List.mem_map, List.mem_cons, List.not_mem_nil, or_false] at h
  obtain ⟨a, ha, hb⟩ := h
  rcases ha with rfl | rfl | rfl <;> rw [← hb] <;> simp [scoreCandidate]

/-- C3: the Octave Corrector accepts iff the chosen candidate is one octave away
(`0.9 < |log2(chosen/preliminary)| < 1.1`), improves the harmonic-grid fit by at
least `0.15`, and lies within `[40, 2000]` Hz; on acceptance it returns the chosen
candidate with a full correction record, on rejection it passes the preliminary f0
and its fit through with no record. -/
theorem octave_corrector_accept_iff (p : ℝ) (peaks : List SpectralPeak)
    (hp : 2 / 10 ^ 9 ≤ p) :
    (((0.9 < |Real.logb 2 ((octaveBest p peaks).cand / p)| ∧
          |Real.logb 2 ((octaveBest p peaks).cand / p)| < 1.1) ∧
        0.15 ≤ (octaveBest p peaks).fit - harmonicGridFitScore peaks p ∧
        MIN_F0_HZ ≤ (octaveBest p peaks).cand ∧ (octaveBest p peaks).cand ≤ MAX_F0_HZ) →
      correctOctaveByHarmonicFit p peaks =
        ((octaveBest p peaks).cand, (octaveBest p peaks).fit,
          some ⟨p, (octaveBest p peaks).cand, harmonicGridFitScore peaks p,
            (octaveBest p peaks).fit⟩, true)) ∧
    (¬ ((0.9 < |Real.logb 2 ((octaveBest p peaks).cand / p)| ∧
          |Real.logb 2 ((octaveBest p peaks).cand / p)| < 1.1) ∧
        0.15 ≤ (octaveBest p peaks).fit - harmonicGridFitScore peaks p ∧
        MIN_F0_HZ ≤ (octaveBest p peaks).cand ∧ (octaveBest p peaks).cand ≤ MAX_F0_HZ) →
      correctOctaveByHarmonicFit p peaks = (p, harmonicGridFitScore peaks p, none, false)) := by
  have hmp : max p (1 / 10 ^ 9) = p :=
    max_eq_left (le_trans (by norm_num) hp)
  have hmc : max (octaveBest p peaks).cand (1 / 10 ^ 9) = (octaveBest p peaks).cand := by
    rcases octaveBest_cand_cases p peaks with h | h | h <;> rw [h] <;>
      exact max_eq_left (by rw [div_le_iff₀ (by norm_num : (0:ℝ) < 10 ^ 9)] at hp ⊢ <;> nlinarith)
  constructor
  · intro hacc
    rw [correctOctaveByHarmonicFit]
    simp only [hmp, hmc]
    rw [if_pos hacc]
  · intro hacc
    rw [correctOctaveByHarmonicFit]
    simp only [hmp, hmc]
    rw [if_neg hacc]

/-- Witness for C3 at `p = 100`, `peaks = []`. -/
theorem octave_corrector_accept_iff_witness :
    (((0.9 < |Real.logb 2 ((octaveBest 100 []).cand / 100)| ∧
          |Real.logb 2 ((octaveBest 100 []).cand / 100)| < 1.1) ∧
        0.15 ≤ (octaveBest 100 []).fit - harmonicGridFitScore [] 100 ∧
        MIN_F0_HZ ≤ (octaveBest 100 []).cand ∧ (octaveBest 100 []).cand ≤ MAX_F0_HZ) →
      correctOctaveByHarmonicFit 100 [] =
        ((octaveBest 100 []).cand, (octaveBest 100 []).fit,
          some ⟨100, (octaveBest 100 []).cand, harmonicGridFitScore [] 100,
            (octaveBest 100 []).fit⟩, true)) ∧
    (¬ ((0.9 < |Real.logb 2 ((octaveBest 100 []).cand / 100)| ∧
          |Real.logb 2 ((octaveBest 100 []).cand / 100)| < 1.1) ∧
        0.15 ≤ (octaveBest 100 []).fit - harmonicGridFitScore [] 100 ∧
        MIN_F0_HZ ≤ (octaveBest 100 []).cand ∧ (octaveBest 100 []).cand ≤ MAX_F0_HZ) →
      correctOctaveByHarmonicFit 100 [] = (100, harmonicGridFitScore [] 100, none, false)) :=
  octave_corrector_accept_iff 100 [] (by norm_num)

/-- C5 (amended): the selected candidate maximizes the lexicographic key
`(fit, in_range, -cents_shift)`: every candidate either has a strictly smaller fit,
or ties on fit with a smaller in-range flag, or ties on both and has a cents shift
at least as LARGE as the selected one — i.e. ties are broken towards the SMALLER
octave shift, not the larger one. -/
theorem octave_pick_rule (p : ℝ) (peaks : List SpectralPeak) :
    ∀ c ∈ octaveScored p peaks,
      c.fit < (octaveBest p peaks).fit ∨
        (c.fit = (octaveBest p peaks).fit ∧
          (c.in_range < (octaveBest p peaks).in_range ∨
            (c.in_range = (octaveBest p peaks).in_range ∧
              (octaveBest p peaks).cents_shift ≤ c.cents_shift))) := by
  intro c hc
  have h := octaveBest_key_max p peaks c hc
  rw [octaveSortKey, octaveSortKey, Prod.Lex.le_iff] at h
  rcases h with h | ⟨h1, h2⟩
  · exact Or.inl h
  · refine Or.inr ⟨h1, ?_⟩
    rw [Prod.Lex.le_iff] at h2
    rcases h2 with h2 | ⟨h2a, h2b⟩
    · exact Or.inl h2
    · exact Or.inr ⟨h2a, le_of_neg_le_neg h2b⟩

/-- Witness for C5's amended theorem at the half-frequency candidate of `p = 100`. -/
theorem octave_pick_rule_witness :
    (scoreCandidate 100 [] (100 / 2)).fit < (octaveBest 100 []).fit ∨
      ((scoreCandidate 100 [] (100 / 2)).fit = (octaveBest 100 []).fit ∧
        ((scoreCandidate 100 [] (100 / 2)).in_range < (octaveBest 100 []).in_range ∨
          ((scoreCandidate 100 [] (100 / 2)).in_range = (octaveBest 100 []).in_range ∧
            (octaveBest 100 []).cents_shift ≤ (scoreCandidate 100 [] (100 / 2)).cents_shift))) :=
  octave_pick_rule 100 [] (scoreCandidate 100 [] (100 / 2)) (by simp [octaveScored])

lemma harmonicGridFitScore_nil (f0_hz tol : ℝ) (k_max : ℕ) :
    harmonicGridFitScore [] f0_hz tol k_max = 0 := by
  rw [harmonicGridFitScore]
  exact if_pos (Or.inl rfl)

lemma cents_shift_eval (p c : ℝ) (peaks : List SpectralPeak)
    (hp9 : 1 / 10 ^ 9 ≤ p) (hc9 : 1 / 10 ^ 9 ≤ c) :
    (scoreCandidate p peaks c).cents_shift = |1200 * Real.logb 2 (c / p)| := by
  rw [scoreCandidate]
  simp only [max_eq_left hc9, max_eq_left hp9]

lemma octave_cex_fit (c : ℝ) : (scoreCandidate 100 ([] : List SpectralPeak) c).fit = 0 :=
  harmonicGridFitScore_nil c _ _

lemma octave_cex_inrange (c : ℝ) (h : MIN_F0_HZ ≤ c ∧ c ≤ MAX_F0_HZ) :
    (scoreCandidate 100 ([] : List SpectralPeak) c).in_range = true :=
  decide_eq_true h

lemma octave_cex_shift0 :
    (scoreCandidate 100 ([] : List SpectralPeak) 100).cents_shift = 0 := by
  rw [cents_shift_eval 100 100 [] (by norm_num) (by norm_num),
    div_self (by norm_num : (100 : ℝ) ≠ 0), Real.logb_one]
  simp

lemma octave_cex_shift_half :
    (scoreCandidate 100 ([] : List SpectralPeak) (100 / 2)).cents_shift = 1200 := by
  rw [cents_shift_eval 100 (100 / 2) [] (by norm_num) (by norm_num)]
  have h : (100 : ℝ) / 2 / 100 = 2⁻¹ := by norm_num
  rw [h, Real.logb_inv, Real.logb_self_eq_one (by norm_num)]
  norm_num

lemma octave_cex_shift_double :
    (scoreCandidate 100 ([] : List SpectralPeak) (100 * 2)).cents_shift = 1200 := by
  rw [cents_shift_eval 100 (100 * 2) [] (by norm_num) (by norm_num)]
  have h : (100 : ℝ) * 2 / 100 = 2 := by norm_num
  rw [h, Real.logb_self_eq_one (by norm_num)]
  norm_num

lemma octaveBest_100_nil_eq :
    octaveBest 100 [] = scoreCandidate 100 ([] : List SpectralPeak) 100 := by
  have hmem := octaveBest_mem 100 []
  rw [octaveScored] at hmem
  simp only [List.map_cons, List.map_nil, List.mem_cons, List.not_mem_nil, or_false] at hmem
  have hnotle : ∀ c : ℝ, (scoreCandidate 100 ([] : List SpectralPeak) c).cents_shift = 1200 →
      (scoreCandidate 100 ([] : List SpectralPeak) c).in_range = true →
      ¬ (octaveSortKey (scoreCandidate 100 ([] : List SpectralPeak) 100) ≤
          octaveSortKey (scoreCandidate 100 ([] : List SpectralPeak) c)) := by
    intro c hshift hinr hle
    rw [octaveSortKey, octaveSortKey, Prod.Lex.le_iff] at hle
    rw [octave_cex_fit, octave_cex_fit, octave_cex_shift0, hshift] at hle
    rcases hle with hlt | ⟨_, hin⟩
    · exact lt_irrefl _ hlt
    · rw [Prod.Lex.le_iff] at hin
      rw [octave_cex_inrange 100 (by norm_num [MIN_F0_HZ, MAX_F0_HZ]), hinr] at hin
      rcases hin with hlt | ⟨_, hns⟩
      · exact lt_irrefl _ hlt
      · norm_num at hns
  rcases hmem with h | h | h
  · exact h
  · exfalso
    refine hnotle (100 / 2) octave_cex_shift_half
      (octave_cex_inrange (100 / 2) (by norm_num [MIN_F0_HZ, MAX_F0_HZ])) ?_
    rw [← h]
    exact octaveBest_key_max 100 [] _ (by simp [octaveScored])
  · exfalso
    refine hnotle (100 * 2) octave_cex_shift_double
      (octave_cex_inrange (100 * 2) (by norm_num [MIN_F0_HZ, MAX_F0_HZ])) ?_
    rw [← h]
    exact octaveBest_key_max 100 [] _ (by simp [octaveScored])

/-- C5 counterexample: at `preliminary_f0 = 100` with an empty summary-peak list,
all three candidates tie on fit (`0`) and on in-range (`true`); the half/double
candidates have octave shift `1200` cents while the selected candidate is the
preliminary f0 itself with shift `0` — the tie is broken towards the SMALLER
shift, contradicting the claim that the larger octave shift wins ties. -/
theorem octave_tiebreak_cex :
    octaveScored 100 [] = [scoreCandidate 100 [] 100, scoreCandidate 100 [] (100 / 2),
      scoreCandidate 100 [] (100 * 2)] ∧
    (scoreCandidate 100 ([] : List SpectralPeak) 100).fit = 0 ∧
    (scoreCandidate 100 ([] : List SpectralPeak) (100 / 2)).fit = 0 ∧
    (scoreCandidate 100 ([] : List SpectralPeak) (100 * 2)).fit = 0 ∧
    (scoreCandidate 100 ([] : List SpectralPeak) 100).in_range = true ∧
    (scoreCandidate 100 ([] : List SpectralPeak) (100 / 2)).in_range = true ∧
    (scoreCandidate 100 ([] : List SpectralPeak) (100 * 2)).in_range = true ∧
    (scoreCandidate 100 ([] : List SpectralPeak) (100 / 2)).cents_shift = 1200 ∧
    (scoreCandidate 100 ([] : List SpectralPeak) (100 * 2)).cents_shift = 1200 ∧
    octaveBest 100 [] = scoreCandidate 100 [] 100 ∧
    (octaveBest 100 []).cents_shift = 0 := by
  refine ⟨by rw [octaveScored]; rfl, octave_cex_fit 100, octave_cex_fit (100 / 2),
    octave_cex_fit (100 * 2),
    octave_cex_inrange 100 (by norm_num [MIN_F0_HZ, MAX_F0_HZ]),
    octave_cex_inrange (100 / 2) (by norm_num [MIN_F0_HZ, MAX_F0_HZ]),
    octave_cex_inrange (100 * 2) (by norm_num [MIN_F0_HZ, MAX_F0_HZ]),
    octave_cex_shift_half, octave_cex_shift_double, octaveBest_100_nil_eq, ?_⟩
  rw [octaveBest_100_nil_eq]
  exact octave_cex_shift0

/-! ## JI candidate generation (build_dataset.py lines 395–446) -/

/-- The inner `while x % d == 0` loop of `_prime_factors`: divide out all copies of
`d`, collecting them.  (Guarded on `x ≠ 0`; the source is only called on `x ≥ 1`.) -/
def stripFactor (d x : ℕ) : List ℕ × ℕ :=
  if h : 2 ≤ d ∧ d ∣ x ∧ x ≠ 0 then
    let r := stripFactor d (x / d)
    (d :: r.1, r.2)
  else ([], x)
termination_by x
decreasing_by exact Nat.div_lt_self (Nat.pos_of_ne_zero h.2.2) h.1

lemma stripFactor_snd_le (d x : ℕ) : (stripFactor d x).2 ≤ x := by
  induction x using Nat.strong_induction_on with
  | _ x ih =>
    rw [stripFactor]
    split_ifs with h
    · have hlt : x / d < x := Nat.div_lt_self (Nat.pos_of_ne_zero h.2.2) h.1
      exact le_trans (ih _ hlt) (le_of_lt hlt)
    · exact le_refl x

/-- The outer `while d * d <= x` loop of `_prime_factors`, plus the trailing
`if x > 1: factors.append(x)`. -/
def factorLoop (x d : ℕ) : List ℕ :=
  if h : d * d ≤ x ∧ 2 ≤ d then
    (stripFactor d x).1 ++ factorLoop (stripFactor d x).2 (d + 1)
  else if 1 < x then [x] else []
termination_by x + 2 - d
decreasing_by
  have h1 : (stripFactor d x).2 ≤ x := stripFactor_snd_le d x
  have h2 : d ≤ d * d := Nat.le_mul_of_pos_left d (by omega)
  omega

/-- `_prime_factors(n)`: trial division starting at `d = 2`. -/
def pyPrimeFactors (n : ℕ) : List ℕ := factorLoop n 2

/-- The filter `not (pf and max(pf) > prime_limit)` of `_generate_ji_candidates`:
keep `p` when its factor list is empty or its largest factor is at most the limit. -/
def withinPrimeLimit (prime_limit p : ℕ) : Bool :=
  decide ((pyPrimeFactors p).foldr max 0 ≤ prime_limit)

/-- A deduplication key `(pp, qq, prime_limit)` as used in the `seen` set. -/
abbrev JIKey := ℕ × ℕ × ℕ

/-- The enumeration order of `_generate_ji_candidates`: prime limits 5, 7, 11, 13;
for each, `p` then `q` over `1..256`, both filtered by the prime limit; each
surviving pair contributes the reduced key `(p//g, q//g, prime_limit)`. -/
def jiRawKeys : List JIKey :=
  [5, 7, 11, 13].flatMap fun prime_limit =>
    ((List.range' 1 256).filter fun p => withinPrimeLimit prime_limit p).flatMap fun p =>
      ((List.range' 1 256).filter fun q => withinPrimeLimit prime_limit q).map fun q =>
        (p / p.gcd q, q / p.gcd q, prime_limit)

/-- `if key in seen: continue; seen.add(key); candidates.append(...)` — the
candidate list carries exactly the keys of `seen`, so membership in the
accumulator models the `seen` set. -/
def dedupStep (acc : List JIKey) (k : JIKey) : List JIKey :=
  if k ∈ acc then acc else acc ++ [k]

/-- The deduplicated key sequence underlying the candidate list, in append order. -/
def jiKeys : List JIKey := jiRawKeys.foldl dedupStep []

/-- A JI candidate record (`_total` is dropped from the returned dicts; it is a
function of the other fields and is reconstructed where needed). -/
structure JICandidate where
  p : ℕ
  q : ℕ
  cents_error : ℝ
  prime_limit : ℕ
  complexity_score : ℝ
  label : String

/-- `cents_error = 1200.0 * math.log2(rr / ratio)` with `rr = pp / qq`. -/
noncomputable def jiCents (ratio : ℝ) (k : JIKey) : ℝ :=
  1200 * Real.logb 2 (((k.1 : ℝ) / (k.2.1 : ℝ)) / ratio)

/-- `complexity = math.log2(pp * qq)`. -/
noncomputable def jiComplexity (k : JIKey) : ℝ :=
  Real.logb 2 ((k.1 : ℝ) * (k.2.1 : ℝ))

/-- `total = abs(cents_error) + 6.0 * complexity + 2.0 * (prime_limit - 5)`. -/
noncomputable def jiTotal (ratio : ℝ) (k : JIKey) : ℝ :=
  |jiCents ratio k| + 6 * jiComplexity k + 2 * ((k.2.2 : ℝ) - 5)

/-- The Python sort key `(_total, abs(cents_error), complexity_score, p, q)`. -/
noncomputable def jiSortKey (ratio : ℝ) (k : JIKey) : ℝ ×ₗ ℝ ×ₗ ℝ ×ₗ ℕ ×ₗ ℕ :=
  toLex (jiTotal ratio k,
    toLex (|jiCents ratio k|, toLex (jiComplexity k, toLex (k.1, k.2.1))))

/-- Ascending comparison on the sort key. -/
def jiLE (ratio : ℝ) (a b : JIKey) : Prop := jiSortKey ratio a ≤ jiSortKey ratio b

instance (ratio : ℝ) : IsTotal JIKey (jiLE ratio) := ⟨fun _ _ => le_total _ _⟩

instance (ratio : ℝ) : IsTrans JIKey (jiLE ratio) := ⟨fun _ _ _ => le_trans⟩

noncomputable instance (ratio : ℝ) : DecidableRel (jiLE ratio) :=
  fun _ _ => Classical.propDecidable _

/-- The key sequence after the stable ascending sort `candidates.sort(key=...)`. -/
noncomputable def jiSorted (ratio : ℝ) : List JIKey := jiKeys.insertionSort (jiLE ratio)

/-- Build the returned candidate dict for one key. -/
noncomputable def mkJICandidate (ratio : ℝ) (k : JIKey) : JICandidate :=
  { p := k.1
    q := k.2.1
    cents_error := jiCents ratio k
    prime_limit := k.2.2
    complexity_score := jiComplexity k
    label := toString k.1 ++ "/" ++ toString k.2.1 }

/-- `_generate_ji_candidates(ratio)`: sort all candidates by the composite key and
keep the first 10. -/
noncomputable def generateJICandidates (ratio : ℝ) : List JICandidate :=
  ((jiSorted ratio).take 10).map (mkJICandidate ratio)

/-- The sort key reconstructed from a returned candidate's fields. -/
noncomputable def jiCandKey (c : JICandidate) : ℝ ×ₗ ℝ ×ₗ ℝ ×ₗ ℕ ×ₗ ℕ :=
  toLex (|c.cents_error| + 6 * c.complexity_score + 2 * ((c.prime_limit : ℝ) - 5),
    toLex (|c.cents_error|, toLex (c.complexity_score, toLex (c.p, c.q))))

/-- Candidate-level ordering: ascending `(score, |cents_error|, complexity, p, q)`. -/
def jiCandLE (a b : JICandidate) : Prop := jiCandKey a ≤ jiCandKey b

lemma mem_dedupStep (acc : List JIKey) (k x : JIKey) :
    x ∈ dedupStep acc k ↔ x ∈ acc ∨ x = k := by
  rw [dedupStep]
  split_ifs with hk
  · constructor
    · exact fun h => Or.inl h
    · rintro (h | rfl)
      · exact h
      · exact hk
  · simp [List.mem_append]

lemma mem_foldl_dedupStep (l : List JIKey) (acc : List JIKey) (x : JIKey) :
    x ∈ l.foldl dedupStep acc ↔ x ∈ acc ∨ x ∈ l := by
  induction l generalizing acc with
  | nil => simp
  | cons k t ih =>
      rw [List.foldl_cons, ih, mem_dedupStep]
      simp only [List.mem_cons]
      tauto

lemma mem_range'_one (m : ℕ) : m ∈ List.range' 1 256 ↔ 1 ≤ m ∧ m ≤ 256 := by
  rw [List.mem_range']
  constructor
  · rintro ⟨i, hi, rfl⟩
    omega
  · intro ⟨h1, h2⟩
    exact ⟨m - 1, by omega, by omega⟩

lemma mem_jiRawKeys (x : JIKey) :
    x ∈ jiRawKeys ↔ ∃ l ∈ ([5, 7, 11, 13] : List ℕ), ∃ p, (1 ≤ p ∧ p ≤ 256) ∧
      withinPrimeLimit l p = true ∧ ∃ q, (1 ≤ q ∧ q ≤ 256) ∧ withinPrimeLimit l q = true ∧
        x = (p / p.gcd q, q / p.gcd q, l) := by
  rw [jiRawKeys]
  simp only [List.mem_flatMap, List.mem_map, List.mem_filter, mem_range'_one]
  constructor
  · rintro ⟨l, hl, p, ⟨⟨hp, hpw⟩, q, ⟨hq, hqw⟩, rfl⟩⟩
    exact ⟨l, hl, p, hp, hpw, q, hq, hqw, rfl⟩
  · rintro ⟨l, hl, p, hp, hpw, q, hq, hqw, rfl⟩
    exact ⟨l, hl, p, ⟨⟨hp, hpw⟩, q, ⟨hq, hqw⟩, rfl⟩⟩

lemma mem_jiKeys_iff (x : JIKey) : x ∈ jiKeys ↔ x ∈ jiRawKeys := by
  rw [jiKeys, mem_foldl_dedupStep]
  simp

lemma jiKeys_facts (x : JIKey) (hx : x ∈ jiKeys) :
    1 ≤ x.1 ∧ 1 ≤ x.2.1 ∧ Nat.Coprime x.1 x.2.1 ∧ x.2.2 ∈ ([5, 7, 11, 13] : List ℕ) := by
  rw [mem_jiKeys_iff, mem_jiRawKeys] at hx
  obtain ⟨l, hl, p, ⟨hp1, hp2⟩, _, q, ⟨hq1, hq2⟩, _, rfl⟩ := hx
  have hg : 0 < p.gcd q := Nat.gcd_pos_of_pos_left q (by omega)
  refine ⟨?_, ?_, ?_, hl⟩
  · exact Nat.div_pos (Nat.le_of_dvd (by omega) (Nat.gcd_dvd_left p q)) hg
  · exact Nat.div_pos (Nat.le_of_dvd (by omega) (Nat.gcd_dvd_right p q)) hg
  · exact Nat.coprime_div_gcd_div_gcd hg

lemma mem_jiKeys_of (a b : ℕ) (h1 : 1 ≤ a) (h2 : a ≤ 256) (h3 : 1 ≤ b) (h4 : b ≤ 256)
    (h5 : withinPrimeLimit 5 a = true) (h6 : withinPrimeLimit 5 b = true)
    (h7 : a.gcd b = 1) : ((a, b, 5) : JIKey) ∈ jiKeys := by
  rw [mem_jiKeys_iff, mem_jiRawKeys]
  refine ⟨5, by simp, a, ⟨h1, h2⟩, h5, b, ⟨h3, h4⟩, h6, ?_⟩
  rw [h7]
  simp

lemma withinPrimeLimit_small :
    withinPrimeLimit 5 1 = true ∧ withinPrimeLimit 5 2 = true ∧
      withinPrimeLimit 5 3 = true ∧ withinPrimeLimit 5 4 = true := by
  have e1 : pyPrimeFactors 1 = [] := by
    rw [pyPrimeFactors, factorLoop]
    norm_num
  have es : ∀ x, 2 ≤ x → x ≤ 3 → pyPrimeFactors x = [x] := by
    intro x hx1 hx2
    rw [pyPrimeFactors, factorLoop]
    rw [dif_neg (by omega)]
    rw [if_pos (by omega)]
  have e4 : pyPrimeFactors 4 = [2, 2] := by
    rw [pyPrimeFactors, factorLoop]
    rw [dif_pos (by omega)]
    have hs4 : stripFactor 2 4 = ([2, 2], 1) := by
      rw [stripFactor]
      rw [dif_pos (by norm_num)]
      have hs2 : stripFactor 2 2 = ([2], 1) := by
        rw [stripFactor]
        rw [dif_pos (by norm_num)]
        have hs1 : stripFactor 2 1 = ([], 1) := by
          rw [stripFactor]
          rw [dif_neg (by norm_num)]
        norm_num [hs1]
      norm_num [hs2]
    rw [hs4]
    rw [factorLoop]
    norm_num
  refine ⟨?_, ?_, ?_, ?_⟩ <;> rw [withinPrimeLimit]
  · rw [e1]; rfl
  · rw [es 2 (by omega) (by omega)]; rfl
  · rw [es 3 (by omega) (by omega)]; rfl
  · rw [e4]; rfl

/-- The ten smallest-complexity reduced keys at prime limit 5, all present in
`jiKeys`; they witness that at least 10 candidates exist. -/
def jiTen : List JIKey :=
  [(1, 1, 5), (2, 1, 5), (1, 2, 5), (3, 1, 5), (1, 3, 5),
   (3, 2, 5), (2, 3, 5), (4, 1, 5), (1, 4, 5), (4, 3, 5)]

lemma jiTen_subset : jiTen ⊆ jiKeys := by
  obtain ⟨w1, w2, w3, w4⟩ := withinPrimeLimit_small
  intro x hx
  rw [jiTen] at hx
  simp only [List.mem_cons, List.not_mem_nil, or_false] at hx
  rcases hx with rfl | rfl | rfl | rfl | rfl | rfl | rfl | rfl | rfl | rfl <;>
    apply mem_jiKeys_of <;> first
      | omega
      | assumption
      | rfl

lemma jiKeys_length_ge : 10 ≤ jiKeys.length := by
  have h : jiTen.length ≤ jiKeys.length :=
    (List.Nodup.subperm (by decide) jiTen_subset).length_le
  simpa [jiTen] using h

lemma logb26_lt_3 : Real.logb 2 6 < 3 := by
  rw [Real.logb_lt_iff_lt_rpow (by norm_num) (by norm_num)]
  have h8 : (2 : ℝ) ^ (3 : ℝ) = 8 := by
    rw [show (3 : ℝ) = ((3 : ℕ) : ℝ) by norm_num, Real.rpow_natCast]
    norm_num
  rw [h8]
  norm_num

lemma logb26_nonneg : 0 ≤ Real.logb 2 6 :=
  Real.logb_nonneg (by norm_num) (by norm_num)

lemma two_rpow_two_fifths_lt : (2 : ℝ) ^ ((2 : ℝ) / 5) < 4 / 3 := by
  have h5 : ((2 : ℝ) ^ ((2 : ℝ) / 5)) ^ (5 : ℕ) = 4 := by
    rw [← Real.rpow_natCast ((2 : ℝ) ^ ((2 : ℝ) / 5)) 5,
      ← Real.rpow_mul (by norm_num : (0 : ℝ) ≤ 2)]
    have he : (2 : ℝ) / 5 * ((5 : ℕ) : ℝ) = ((2 : ℕ) : ℝ) := by push_cast; ring
    rw [he, Real.rpow_natCast]
    norm_num
  have hlt : ((2 : ℝ) ^ ((2 : ℝ) / 5)) ^ (5 : ℕ) < (4 / 3 : ℝ) ^ (5 : ℕ) := by
    rw [h5]
    norm_num
  exact lt_of_pow_lt_pow_left 5 (by norm_num) hlt

lemma logb_43_gt : 2 / 5 < Real.logb 2 (4 / 3) := by
  rw [Real.lt_logb_iff_rpow_lt (by norm_num) (by norm_num)]
  exact two_rpow_two_fifths_lt

lemma logb_far (r : ℝ) (hr : 0 < r) (h : 4 / 3 ≤ r ∨ r ≤ 3 / 4) :
    2 / 5 < |Real.logb 2 r| := by
  rcases h with h | h
  · have h1 : Real.logb 2 (4 / 3) ≤ Real.logb 2 r :=
      Real.logb_le_logb_of_le (by norm_num) (by norm_num) h
    calc 2 / 5 < Real.logb 2 (4 / 3) := logb_43_gt
      _ ≤ Real.logb 2 r := h1
      _ ≤ |Real.logb 2 r| := le_abs_self _
  · have h1 : Real.logb 2 r ≤ Real.logb 2 (3 / 4) :=
      Real.logb_le_logb_of_le (by norm_num) hr h
    have h2 : Real.logb 2 (3 / 4) = -Real.logb 2 (4 / 3) := by
      rw [show (3 : ℝ) / 4 = ((4 : ℝ) / 3)⁻¹ by norm_num, Real.logb_inv]
    have h3 : 2 / 5 < -Real.logb 2 r := by
      rw [h2] at h1
      linarith [logb_43_gt]
    calc 2 / 5 < -Real.logb 2 r := h3
      _ ≤ |Real.logb 2 r| := neg_le_abs _

lemma jiCents_32 (l : ℕ) : jiCents (3 / 2) (3, 2, l) = 0 := by
  rw [jiCents]
  have h1 : (((3, 2, l) : JIKey).1 : ℝ) / (((3, 2, l) : JIKey).2.1 : ℝ) / (3 / 2) = 1 := by
    push_cast
    norm_num
  rw [h1, Real.logb_one, mul_zero]

lemma jiComplexity_32 (l : ℕ) : jiComplexity (3, 2, l) = Real.logb 2 6 := by
  rw [jiComplexity]
  norm_num

lemma jiTotal_star : jiTotal (3 / 2) (3, 2, 5) = 6 * Real.logb 2 6 := by
  rw [jiTotal, jiCents_32, jiComplexity_32]
  norm_num

lemma ji_star_mem : ((3, 2, 5) : JIKey) ∈ jiKeys := by
  obtain ⟨_, w2, w3, _⟩ := withinPrimeLimit_small
  exact mem_jiKeys_of 3 2 (by omega) (by omega) (by omega) (by omega) w3 w2 rfl

lemma ji_star_strict_min (k : JIKey) (hk : k ∈ jiKeys) (hne : k ≠ (3, 2, 5)) :
    jiTotal (3 / 2) (3, 2, 5) < jiTotal (3 / 2) k := by
  obtain ⟨ha, hb, hcop, hl⟩ := jiKeys_facts k hk
  obtain ⟨a, b, l⟩ := k
  simp only at ha hb hl hne
  have hl5n : 5 ≤ l := by
    simp only [List.mem_cons, List.not_mem_nil, or_false] at hl
    rcases hl with rfl | rfl | rfl | rfl <;> omega
  have hl5 : (5 : ℝ) ≤ (l : ℝ) := by exact_mod_cast hl5n
  have hcents_nonneg : 0 ≤ |jiCents (3 / 2) (a, b, l)| := abs_nonneg _
  have hcomp_nonneg : 0 ≤ jiComplexity (a, b, l) := by
    rw [jiComplexity]
    apply Real.logb_nonneg (by norm_num)
    have : (1 : ℝ) ≤ (a : ℝ) ∧ (1 : ℝ) ≤ (b : ℝ) := by
      constructor <;> exact_mod_cast by omega
    nlinarith [this.1, this.2]
  rw [jiTotal_star]
  by_cases hab : a * b ≤ 6
  · by_cases hab32 : a = 3 ∧ b = 2
    · obtain ⟨rfl, rfl⟩ := hab32
      have hlne : l ≠ 5 := fun h => hne (by rw [h])
      have hl7n : 7 ≤ l := by
        simp only [List.mem_cons, List.not_mem_nil, or_false] at hl
        rcases hl with rfl | rfl | rfl | rfl <;> omega
      have hl7 : (7 : ℝ) ≤ (l : ℝ) := by exact_mod_cast hl7n
      rw [jiTotal, jiCents_32, jiComplexity_32]
      simp only [abs_zero]
      nlinarith
    · have h6a : a ≤ 6 := by
        have := Nat.le_mul_of_pos_right a (show 0 < b by omega)
        omega
      have h6b : b ≤ 6 := by
        have := Nat.le_mul_of_pos_left b (show 0 < a by omega)
        omega
      have ha1 : 1 ≤ a := ha
      have hb1 : 1 ≤ b := hb
      have hfar : 2 / 5 < |Real.logb 2 (((a : ℝ) / (b : ℝ)) / (3 / 2))| := by
        interval_cases a <;> interval_cases b <;>
          first
            | omega
            | ((refine logb_far _ ?_ (Or.inl ?_) <;> norm_num) <;> done)
            | ((refine logb_far _ ?_ (Or.inr ?_) <;> norm_num) <;> done)
      have hcents : 480 < |jiCents (3 / 2) (a, b, l)| := by
        rw [jiCents, abs_mul, show |(1200 : ℝ)| = 1200 by norm_num]
        nlinarith [hfar]
      rw [jiTotal]
      nlinarith [logb26_lt_3, hcomp_nonneg]
  · have h7 : 7 ≤ a * b := by omega
    have hcomp : Real.logb 2 6 < jiComplexity (a, b, l) := by
      rw [jiComplexity]
      apply Real.logb_lt_logb (by norm_num) (by norm_num)
      have : (7 : ℝ) ≤ (a : ℝ) * (b : ℝ) := by exact_mod_cast h7
      linarith
    rw [jiTotal]
    nlinarith

lemma jiLE_total (ratio : ℝ) (a b : JIKey) (h : jiLE ratio a b) :
    jiTotal ratio a ≤ jiTotal ratio b := by
  rw [jiLE, jiSortKey, jiSortKey, Prod.Lex.le_iff] at h
  rcases h with h | ⟨h, _⟩
  · exact le_of_lt h
  · exact le_of_eq h

lemma jiSorted_length : (jiSorted (3 / 2)).length = jiKeys.length :=
  List.length_insertionSort _ _

lemma jiSorted_head_star : ∃ t, jiSorted (3 / 2) = (3, 2, 5) :: t := by
  have hpos : 0 < (jiSorted (3 / 2)).length := by
    rw [jiSorted_length]
    have := jiKeys_length_ge
    omega
  obtain ⟨h, t, hs⟩ : ∃ h t, jiSorted (3 / 2) = h :: t := by
    cases hcase : jiSorted (3 / 2) with
    | nil => rw [hcase] at hpos; simp at hpos
    | cons h t => exact ⟨h, t, rfl⟩
  have hmem_h : h ∈ jiKeys := by
    have : h ∈ jiSorted (3 / 2) := by
      rw [hs]
      exact List.mem_cons_self h t
    rw [jiSorted] at this
    exact (List.mem_insertionSort _).mp this
  by_cases heq : h = (3, 2, 5)
  · exact ⟨t, heq ▸ hs⟩
  · exfalso
    have hstar : ((3, 2, 5) : JIKey) ∈ jiSorted (3 / 2) := by
      rw [jiSorted]
      exact (List.mem_insertionSort _).mpr ji_star_mem
    rw [hs] at hstar
    rcases List.mem_cons.mp hstar with he | ht
    · exact heq he.symm
    · have hsorted : (jiSorted (3 / 2)).Sorted (jiLE (3 / 2)) :=
        List.sorted_insertionSort _ _
      rw [hs] at hsorted
      have hle := List.rel_of_sorted_cons hsorted _ ht
      have h1 := jiLE_total _ _ _ hle
      have h2 := ji_star_strict_min h hmem_h heq
      linarith

lemma jiCandKey_mk (ratio : ℝ) (k : JIKey) :
    jiCandKey (mkJICandidate ratio k) = jiSortKey ratio k := rfl

lemma generateJI_head :
    (generateJICandidates (3 / 2)).head? = some (mkJICandidate (3 / 2) (3, 2, 5)) := by
  obtain ⟨t, hs⟩ := jiSorted_head_star
  rw [generateJICandidates, hs, List.take_succ_cons, List.map_cons, List.head?_cons]

lemma generateJI_head_mem :
    mkJICandidate (3 / 2) (3, 2, 5) ∈ generateJICandidates (3 / 2) := by
  obtain ⟨t, hs⟩ := jiSorted_head_star
  rw [generateJICandidates, hs, List.take_succ_cons, List.map_cons]
  exact List.mem_cons_self _ _

/-- C2: JI candidate generation for the ratio 3/2 returns exactly 10 candidates,
each with coprime positive `p`, `q`, sorted ascending by
`(score, |cents_error|, complexity, p, q)`, and the top-ranked candidate is
`p = 3, q = 2` with `cents_error = 0` (in particular within 5 cents). -/
theorem ji_candidates_three_halves :
    (generateJICandidates (3 / 2)).length = 10 ∧
    (∀ c ∈ generateJICandidates (3 / 2), 0 < c.p ∧ 0 < c.q ∧ Nat.Coprime c.p c.q) ∧
    (generateJICandidates (3 / 2)).Sorted jiCandLE ∧
    ∃ c₀, (generateJICandidates (3 / 2)).head? = some c₀ ∧ c₀.p = 3 ∧ c₀.q = 2 ∧
      c₀.cents_error = 0 ∧ |c₀.cents_error| < 5 := by
  refine ⟨?_, ?_, ?_, ?_⟩
  · rw [generateJICandidates, List.length_map, List.length_take, jiSorted_length]
    have := jiKeys_length_ge
    omega
  · intro c hc
    rw [generateJICandidates, List.mem_map] at hc
    obtain ⟨k, hk, rfl⟩ := hc
    have hk2 : k ∈ jiKeys := by
      have h1 : k ∈ jiSorted (3 / 2) := List.take_subset 10 _ hk
      rw [jiSorted] at h1
      exact (List.mem_insertionSort _).mp h1
    obtain ⟨h1, h2, h3, _⟩ := jiKeys_facts k hk2
    exact ⟨h1, h2, h3⟩
  · rw [generateJICandidates, List.Sorted, List.pairwise_map]
    have hs : (jiSorted (3 / 2)).Pairwise (jiLE (3 / 2)) :=
      List.sorted_insertionSort _ _
    have ht : ((jiSorted (3 / 2)).take 10).Pairwise (jiLE (3 / 2)) :=
      List.Pairwise.sublist (List.take_sublist _ _) hs
    refine ht.imp ?_
    intro a b hab
    rw [jiCandLE, jiCandKey_mk, jiCandKey_mk]
    exact hab
  · refine ⟨_, generateJI_head, rfl, rfl, jiCents_32 5, ?_⟩
    show |jiCents (3 / 2) (3, 2, 5)| < 5
    rw [jiCents_32 5]
    norm_num

/-- Witness for C2: the length conjunct evaluated, and the per-candidate conjunct
applied at the concrete head candidate. -/
theorem ji_candidates_three_halves_witness :
    (generateJICandidates (3 / 2)).length = 10 ∧
      (0 < (mkJICandidate (3 / 2) (3, 2, 5)).p ∧ 0 < (mkJICandidate (3 / 2) (3, 2, 5)).q ∧
        Nat.Coprime (mkJICandidate (3 / 2) (3, 2, 5)).p (mkJICandidate (3 / 2) (3, 2, 5)).q) :=
  ⟨ji_candidates_three_halves.1,
    ji_candidates_three_halves.2.1 _ generateJI_head_mem⟩

/-! ## Window selector (build_dataset.py lines 191–225) -/

/-- `np.mean` over a list. -/
noncomputable def listMean (xs : List ℝ) : ℝ := xs.sum / xs.length

/-- `np.var`: population variance, mean of squared deviations from the mean. -/
noncomputable def npVar (xs : List ℝ) : ℝ :=
  listMean (xs.map fun v => (v - listMean xs) ^ 2)

/-- The per-candidate short-time RMS list:
`chunks = segment[:(size//frame)*frame].reshape(-1, frame)`,
`rms = sqrt(mean(chunks*chunks, axis=1) + 1e-12)`. -/
noncomputable def windowRmsList (x : List ℝ) (s win frame : ℕ) : List ℝ :=
  (List.range (((x.drop s).take win).length / frame)).map fun j =>
    Real.sqrt (listMean (((((x.drop s).take win).drop (j * frame)).take frame).map
        fun v => v * v) + 1 / 10 ^ 12)

/-- The update condition
`best_var is None or variance < best_var - 1e-12
 or (abs(variance - best_var) < 1e-12 and s > best_start)`. -/
def scanUpdate (best : ℕ) (bv : Option ℝ) (s : ℕ) (variance : ℝ) : Prop :=
  bv = none ∨ ∃ b, bv = some b ∧
    (variance < b - 1 / 10 ^ 12 ∨ (|variance - b| < 1 / 10 ^ 12 ∧ best < s))

noncomputable instance (best : ℕ) (bv : Option ℝ) (s : ℕ) (variance : ℝ) :
    Decidable (scanUpdate best bv s variance) :=
  Classical.propDecidable _

/-- One iteration of the best-window loop (`continue` when no full chunk fits). -/
noncomputable def scanStep (x : List ℝ) (win frame : ℕ) (acc : ℕ × Option ℝ) (s : ℕ) :
    ℕ × Option ℝ :=
  if ((x.drop s).take win).length / frame = 0 then acc
  else if scanUpdate acc.1 acc.2 s (npVar (windowRmsList x s win frame)) then
    (s, some (npVar (windowRmsList x s win frame)))
  else acc

/-- The whole scan, starting from `(start_idx, None)`. -/
noncomputable def pickWindowScan (x : List ℝ) (win frame start0 : ℕ) (cands : List ℕ) :
    ℕ × Option ℝ :=
  cands.foldl (scanStep x win frame) (start0, none)

/-- `range(start_idx, n - win + 1, frame)`. -/
def scanStarts (start_idx n win frame : ℕ) : List ℕ :=
  if start_idx + win ≤ n then
    (List.range ((n - win - start_idx) / frame + 1)).map fun k => start_idx + k * frame
  else []

/-- The window length after the shrink/floor adjustments:
`win = min(max_win, available)`, raised to `max(min_win, available)` when below the
0.40 s floor, then clamped back to `available`.  (`int(1.00*sr) = sr`,
`int(0.40*sr) = 2*sr/5`, `int(0.20*sr) = sr/5` in exact arithmetic.) -/
def windowLen (sr n : ℕ) : ℕ :=
  let start_idx := min (sr / 5) n
  let available := n - start_idx
  let win1 := min sr available
  let win2 := if win1 < 2 * sr / 5 then max (2 * sr / 5) available else win1
  if available < win2 then available else win2

/-- The best start of the scan over the candidate grid. -/
noncomputable def pickBestStart (x : List ℝ) (sr : ℕ) : ℕ :=
  (pickWindowScan x (windowLen sr x.length) (max 1 (sr / 20)) (min (sr / 5) x.length)
    (scanStarts (min (sr / 5) x.length) x.length (windowLen sr x.length)
      (max 1 (sr / 20)))).1

/-- `_pick_stable_window(x, sr)`: returns `(start, end, note)`. -/
noncomputable def pickStableWindow (x : List ℝ) (sr : ℕ) : ℕ × ℕ × String :=
  if x.length ≤ min (sr / 5) x.length then
    (0, x.length, "audio shorter than ignore lead-in; using full signal")
  else
    (pickBestStart x sr, pickBestStart x sr + windowLen sr x.length,
      if (x.length : ℝ) / (sr : ℝ) < 6 / 5 then "short audio; analysis window reduced" else "")

lemma scanStep_fst (x : List ℝ) (win frame : ℕ) (acc : ℕ × Option ℝ) (s : ℕ) :
    (scanStep x win frame acc s).1 = acc.1 ∨ (scanStep x win frame acc s).1 = s := by
  rw [scanStep]
  split_ifs <;> simp

lemma pickWindowScan_fst_mem (x : List ℝ) (win frame : ℕ) (cands : List ℕ)
    (acc : ℕ × Option ℝ) :
    (cands.foldl (scanStep x win frame) acc).1 = acc.1 ∨
      (cands.foldl (scanStep x win frame) acc).1 ∈ cands := by
  induction cands generalizing acc with
  | nil => exact Or.inl rfl
  | cons s t ih =>
      rw [List.foldl_cons]
      rcases ih (scanStep x win frame acc s) with h | h
      · rcases scanStep_fst x win frame acc s with h2 | h2
        · exact Or.inl (h.trans h2)
        · exact Or.inr (by rw [h, h2]; exact List.mem_cons_self s t)
      · exact Or.inr (List.mem_cons_of_mem s h)

lemma scanStarts_add_win_le (start_idx n win frame : ℕ) (s : ℕ)
    (hs : s ∈ scanStarts start_idx n win frame) : s + win ≤ n := by
  rw [scanStarts] at hs
  split_ifs at hs with h
  · simp only [List.mem_map, List.mem_range] at hs
    obtain ⟨k, hk, rfl⟩ := hs
    have h1 : k * frame ≤ ((n - win - start_idx) / frame) * frame :=
      Nat.mul_le_mul_right _ (by omega)
    have h2 : ((n - win - start_idx) / frame) * frame ≤ n - win - start_idx :=
      Nat.div_mul_le_self _ _
    omega
  · simp at hs

lemma scanStarts_ge (start_idx n win frame : ℕ) (s : ℕ)
    (hs : s ∈ scanStarts start_idx n win frame) : start_idx ≤ s := by
  rw [scanStarts] at hs
  split_ifs at hs with h
  · simp only [List.mem_map, List.mem_range] at hs
    obtain ⟨k, _, rfl⟩ := hs
    omega
  · simp at hs

lemma windowLen_pos (sr n : ℕ) (hsr : 0 < sr) (h : min (sr / 5) n < n) :
    0 < windowLen sr n := by
  rw [windowLen]
  split_ifs <;> omega

lemma windowLen_le (sr n : ℕ) : windowLen sr n ≤ n - min (sr / 5) n := by
  rw [windowLen]
  split_ifs <;> omega

/-- C10: for a non-empty waveform the Window Selector returns a valid non-empty
slice `start < end ≤ n`, and when the 0.20 s lead-in consumes the entire signal it
returns `(0, n)` with the fallback note. -/
theorem window_bounds (x : List ℝ) (sr : ℕ) (hx : x ≠ []) (hsr : 0 < sr) :
    (pickStableWindow x sr).1 < (pickStableWindow x sr).2.1 ∧
      (pickStableWindow x sr).2.1 ≤ x.length ∧
      (x.length ≤ sr / 5 → pickStableWindow x sr =
        (0, x.length, "audio shorter than ignore lead-in; using full signal")) := by
  have hn : 0 < x.length := List.length_pos.mpr hx
  by_cases hcase : x.length ≤ min (sr / 5) x.length
  · rw [pickStableWindow, if_pos hcase]
    exact ⟨hn, le_refl _, fun _ => rfl⟩
  · push_neg at hcase
    rw [pickStableWindow, if_neg (not_le.mpr hcase)]
    have hwpos : 0 < windowLen sr x.length := windowLen_pos sr x.length hsr hcase
    have hwle : windowLen sr x.length ≤ x.length - min (sr / 5) x.length :=
      windowLen_le sr x.length
    have hmem : pickBestStart x sr = min (sr / 5) x.length ∨
        pickBestStart x sr ∈ scanStarts (min (sr / 5) x.length) x.length
          (windowLen sr x.length) (max 1 (sr / 20)) := by
      rw [pickBestStart, pickWindowScan]
      exact pickWindowScan_fst_mem _ _ _ _ _
    refine ⟨?_, ?_, ?_⟩
    · show pickBestStart x sr < pickBestStart x sr + windowLen sr x.length
      omega
    · show pickBestStart x sr + windowLen sr x.length ≤ x.length
      rcases hmem with h | h
      · omega
      · exact scanStarts_add_win_le _ _ _ _ _ h
    · intro hlead
      exfalso
      omega

/-- Witness for C10 at `x = [0]`, `sr = 1`. -/
theorem window_bounds_witness :
    (pickStableWindow [0] 1).1 < (pickStableWindow [0] 1).2.1 ∧
      (pickStableWindow [0] 1).2.1 ≤ ([0] : List ℝ).length ∧
      (([0] : List ℝ).length ≤ 1 / 5 → pickStableWindow [0] 1 =
        (0, ([0] : List ℝ).length, "audio shorter than ignore lead-in; using full signal")) :=
  window_bounds [0] 1 (by simp) (by norm_num)

lemma scanUpdate_none (best s : ℕ) (v : ℝ) : scanUpdate best none s v :=
  Or.inl rfl

lemma scanUpdate_some (best s : ℕ) (b v : ℝ) :
    scanUpdate best (some b) s v ↔
      (v < b - 1 / 10 ^ 12 ∨ (|v - b| < 1 / 10 ^ 12 ∧ best < s)) := by
  rw [scanUpdate]
  constructor
  · rintro (h | ⟨b', hb', h⟩)
    · simp at h
    · obtain rfl : b = b' := by injection hb'
      exact h
  · intro h
    exact Or.inr ⟨b, rfl, h⟩

lemma pickWindowScan_fold_spec (x : List ℝ) (win frame : ℕ) :
    ∀ (cands : List ℕ) (acc : ℕ × Option ℝ),
      cands.Pairwise (· < ·) →
      (acc.2 = none ∨ ((∀ s ∈ cands, acc.1 < s) ∧
        acc.2 = some (npVar (windowRmsList x acc.1 win frame)))) →
      (∀ s ∈ cands, acc.1 ≤ s) →
      ((cands.foldl (scanStep x win frame) acc).1 = acc.1 ∨
          (cands.foldl (scanStep x win frame) acc).1 ∈ cands) ∧
        acc.1 ≤ (cands.foldl (scanStep x win frame) acc).1 ∧
        ((cands.foldl (scanStep x win frame) acc).2 = none ∨
          (cands.foldl (scanStep x win frame) acc).2 =
            some (npVar (windowRmsList x
              (cands.foldl (scanStep x win frame) acc).1 win frame))) ∧
        (∀ s ∈ cands, (cands.foldl (scanStep x win frame) acc).1 < s →
          ((x.drop s).take win).length / frame ≠ 0 →
          ∀ bv, (cands.foldl (scanStep x win frame) acc).2 = some bv →
            (bv - 1 / 10 ^ 12 ≤ npVar (windowRmsList x s win frame) ∧
              1 / 10 ^ 12 ≤ |npVar (windowRmsList x s win frame) - bv|)) := by
  intro cands
  induction cands with
  | nil =>
      intro acc _ hacc _
      refine ⟨Or.inl rfl, le_refl _, ?_, ?_⟩
      · rcases hacc with h | ⟨_, h⟩
        · exact Or.inl h
        · exact Or.inr h
      · intro s hs
        exact absurd hs (List.not_mem_nil s)
  | cons s₀ rest ih =>
      intro acc hpw hacc hge
      have hpw' := (List.pairwise_cons.mp hpw).2
      have hlt0 := (List.pairwise_cons.mp hpw).1
      rw [List.foldl_cons]
      by_cases hc : ((x.drop s₀).take win).length / frame = 0
      · have hacc' : scanStep x win frame acc s₀ = acc := by rw [scanStep, if_pos hc]
        rw [hacc']
        obtain ⟨c1, c2, c3, c4⟩ := ih acc hpw'
          (by
            rcases hacc with h | ⟨h1, h2⟩
            · exact Or.inl h
            · exact Or.inr ⟨fun s hs => h1 s (List.mem_cons_of_mem _ hs), h2⟩)
          (fun s hs => hge s (List.mem_cons_of_mem _ hs))
        refine ⟨?_, c2, c3, ?_⟩
        · rcases c1 with h | h
          · exact Or.inl h
          · exact Or.inr (List.mem_cons_of_mem _ h)
        · intro s hs h1 h2
          rcases List.mem_cons.mp hs with rfl | hs'
          · exact absurd hc h2
          · exact c4 s hs' h1 h2
      · by_cases hu : scanUpdate acc.1 acc.2 s₀ (npVar (windowRmsList x s₀ win frame))
        · have hacc' : scanStep x win frame acc s₀ =
              (s₀, some (npVar (windowRmsList x s₀ win frame))) := by
            rw [scanStep, if_neg hc, if_pos hu]
          rw [hacc']
          obtain ⟨c1, c2, c3, c4⟩ := ih (s₀, some (npVar (windowRmsList x s₀ win frame)))
            hpw' (Or.inr ⟨fun s hs => hlt0 s hs, rfl⟩)
            (fun s hs => le_of_lt (hlt0 s hs))
          refine ⟨?_, ?_, c3, ?_⟩
          · rcases c1 with h | h
            · exact Or.inr (by rw [h]; exact List.mem_cons_self _ _)
            · exact Or.inr (List.mem_cons_of_mem _ h)
          · exact le_trans (hge s₀ (List.mem_cons_self _ _)) c2
          · intro s hs h1 h2
            rcases List.mem_cons.mp hs with rfl | hs'
            · exact absurd (lt_of_le_of_lt c2 h1) (lt_irrefl _)
            · exact c4 s hs' h1 h2
        · have hacc' : scanStep x win frame acc s₀ = acc := by
            rw [scanStep, if_neg hc, if_neg hu]
          rw [hacc']
          rcases hacc with hnone | ⟨hlt, hsome⟩
          · exact absurd (hnone ▸ scanUpdate_none acc.1 s₀ _) hu
          · rw [hsome] at hu
            rw [scanUpdate_some] at hu
            push_neg at hu
            obtain ⟨hu1, hu2⟩ := hu
            have hu3 : 1 / 10 ^ 12 ≤ |npVar (windowRmsList x s₀ win frame) -
                npVar (windowRmsList x acc.1 win frame)| :=
              not_lt.mp (fun h =>
                absurd (hlt s₀ (List.mem_cons_self _ _)) (not_lt.mpr (hu2 h)))
            obtain ⟨c1, c2, c3, c4⟩ := ih acc hpw'
              (Or.inr ⟨fun s hs => hlt s (List.mem_cons_of_mem _ hs), hsome⟩)
              (fun s hs => hge s (List.mem_cons_of_mem _ hs))
            refine ⟨?_, c2, c3, ?_⟩
            · rcases c1 with h | h
              · exact Or.inl h
              · exact Or.inr (List.mem_cons_of_mem _ h)
            · intro s hs h1 h2 bv hbv
              rcases List.mem_cons.mp hs with rfl | hs'
              · have hr1 : (rest.foldl (scanStep x win frame) acc).1 = acc.1 := by
                  rcases c1 with h | h
                  · exact h
                  · have := hlt0 _ h
                    omega
                have hbv2 : bv = npVar (windowRmsList x acc.1 win frame) := by
                  rcases c3 with h | h
                  · rw [h] at hbv
                    exact absurd hbv (by simp)
                  · rw [hr1] at h
                    rw [h] at hbv
                    injection hbv with h'
                    exact h'.symm
                rw [hbv2]
                exact ⟨hu1, hu3⟩
              · exact c4 s hs' h1 h2 bv hbv

lemma scanStarts_pairwise (start_idx n win frame : ℕ) (hf : 0 < frame) :
    (scanStarts start_idx n win frame).Pairwise (· < ·) := by
  rw [scanStarts]
  split_ifs
  · rw [List.pairwise_map]
    refine (List.pairwise_lt_range _).imp ?_
    intro a b hab
    have := Nat.mul_lt_mul_of_lt_of_le hab (le_refl frame) hf
    omega
  · exact List.Pairwise.nil

/-- C8 (amended): the Window Selector's scan keeps an incumbent `(best, best_var)`
and, at each later-starting candidate, replaces it iff the candidate's variance is
more than `1e-12` below the incumbent's or within `1e-12` of it (so near-ties go to
the later start).  Consequently the returned start is the lead-in start or a
scanned candidate, the returned variance is the variance at the returned start,
and every candidate scanned after the returned start failed the test: its variance
is at least `best_var - 1e-12` and at least `1e-12` away from `best_var`.  The
returned start need NOT have globally minimal variance. -/
theorem window_scan_rule (x : List ℝ) (sr : ℕ) (win frame start_idx : ℕ)
    (hwin : win = windowLen sr x.length) (hframe : frame = max 1 (sr / 20))
    (hstart : start_idx = min (sr / 5) x.length)
    (hmain : start_idx < x.length) :
    (pickStableWindow x sr).1 =
      (pickWindowScan x win frame start_idx (scanStarts start_idx x.length win frame)).1 ∧
    ((pickWindowScan x win frame start_idx
        (scanStarts start_idx x.length win frame)).1 = start_idx ∨
      (pickWindowScan x win frame start_idx
        (scanStarts start_idx x.length win frame)).1 ∈
          scanStarts start_idx x.length win frame) ∧
    ((pickWindowScan x win frame start_idx
        (scanStarts start_idx x.length win frame)).2 = none ∨
      (pickWindowScan x win frame start_idx
        (scanStarts start_idx x.length win frame)).2 =
        some (npVar (windowRmsList x
          (pickWindowScan x win frame start_idx
            (scanStarts start_idx x.length win frame)).1 win frame))) ∧
    (∀ s ∈ scanStarts start_idx x.length win frame,
      (pickWindowScan x win frame start_idx
        (scanStarts start_idx x.length win frame)).1 < s →
      ((x.drop s).take win).length / frame ≠ 0 →
      ∀ bv, (pickWindowScan x win frame start_idx
          (scanStarts start_idx x.length win frame)).2 = some bv →
        (bv - 1 / 10 ^ 12 ≤ npVar (windowRmsList x s win frame) ∧
          1 / 10 ^ 12 ≤ |npVar (windowRmsList x s win frame) - bv|)) := by
  have hf : 0 < frame := by rw [hframe]; omega
  obtain ⟨c1, _, c3, c4⟩ := pickWindowScan_fold_spec x win frame
    (scanStarts start_idx x.length win frame) (start_idx, none)
    (scanStarts_pairwise _ _ _ _ hf) (Or.inl rfl)
    (fun s hs => scanStarts_ge _ _ _ _ s hs)
  refine ⟨?_, c1, c3, c4⟩
  rw [pickStableWindow, if_neg (by omega)]
  rw [pickBestStart, hwin, hframe, hstart]

/-- Witness for C8's amended theorem at `x = [0]`, `sr = 1`. -/
theorem window_scan_rule_witness :
    (pickStableWindow [0] 1).1 =
      (pickWindowScan [0] (windowLen 1 1) (max 1 (1 / 20)) (min (1 / 5) 1)
        (scanStarts (min (1 / 5) 1) 1 (windowLen 1 1) (max 1 (1 / 20)))).1 ∧
    ((pickWindowScan [0] (windowLen 1 1) (max 1 (1 / 20)) (min (1 / 5) 1)
        (scanStarts (min (1 / 5) 1) 1 (windowLen 1 1) (max 1 (1 / 20)))).1 = min (1 / 5) 1 ∨
      (pickWindowScan [0] (windowLen 1 1) (max 1 (1 / 20)) (min (1 / 5) 1)
        (scanStarts (min (1 / 5) 1) 1 (windowLen 1 1) (max 1 (1 / 20)))).1 ∈
          scanStarts (min (1 / 5) 1) 1 (windowLen 1 1) (max 1 (1 / 20))) ∧
    ((pickWindowScan [0] (windowLen 1 1) (max 1 (1 / 20)) (min (1 / 5) 1)
        (scanStarts (min (1 / 5) 1) 1 (windowLen 1 1) (max 1 (1 / 20)))).2 = none ∨
      (pickWindowScan [0] (windowLen 1 1) (max 1 (1 / 20)) (min (1 / 5) 1)
        (scanStarts (min (1 / 5) 1) 1 (windowLen 1 1) (max 1 (1 / 20)))).2 =
        some (npVar (windowRmsList [0]
          (pickWindowScan [0] (windowLen 1 1) (max 1 (1 / 20)) (min (1 / 5) 1)
            (scanStarts (min (1 / 5) 1) 1 (windowLen 1 1) (max 1 (1 / 20)))).1
          (windowLen 1 1) (max 1 (1 / 20))))) ∧
    (∀ s ∈ scanStarts (min (1 / 5) 1) 1 (windowLen 1 1) (max 1 (1 / 20)),
      (pickWindowScan [0] (windowLen 1 1) (max 1 (1 / 20)) (min (1 / 5) 1)
        (scanStarts (min (1 / 5) 1) 1 (windowLen 1 1) (max 1 (1 / 20)))).1 < s →
      ((([0] : List ℝ).drop s).take (windowLen 1 1)).length / max 1 (1 / 20) ≠ 0 →
      ∀ bv, (pickWindowScan [0] (windowLen 1 1) (max 1 (1 / 20)) (min (1 / 5) 1)
          (scanStarts (min (1 / 5) 1) 1 (windowLen 1 1) (max 1 (1 / 20)))).2 = some bv →
        (bv - 1 / 10 ^ 12 ≤ npVar (windowRmsList [0] s (windowLen 1 1) (max 1 (1 / 20))) ∧
          1 / 10 ^ 12 ≤ |npVar (windowRmsList [0] s (windowLen 1 1) (max 1 (1 / 20))) - bv|)) :=
  window_scan_rule [0] 1 (windowLen 1 1) (max 1 (1 / 20)) (min (1 / 5) 1)
    (by rfl) (by rfl) (by rfl) (by norm_num)

/-- The C8 counterexample waveform: 13 samples at `sr = 10`; all zero except the
last, which only the later of the two scanned windows covers. -/
noncomputable def windowCexList : List ℝ :=
  [0, 0, 0, 0, 0, 0, 0, 0, 0, 0, 0, 0, 1 / 10 ^ 6]

lemma listMean_singleton (y : ℝ) : listMean [y] = y := by
  simp [listMean]

lemma rms_all_zero (x : List ℝ) (s win frame : ℕ)
    (hz : ∀ v ∈ (x.drop s).take win, v = 0) :
    windowRmsList x s win frame =
      List.replicate (((x.drop s).take win).length / frame) (1 / 10 ^ 6) := by
  rw [windowRmsList]
  have h : ∀ j ∈ List.range (((x.drop s).take win).length / frame),
      Real.sqrt (listMean (((((x.drop s).take win).drop (j * frame)).take frame).map
        fun v => v * v) + 1 / 10 ^ 12) = 1 / 10 ^ 6 := by
    intro j _
    have hsum : (((((x.drop s).take win).drop (j * frame)).take frame).map
        fun v => v * v).sum = 0 := by
      apply List.sum_eq_zero
      intro y hy
      rw [List.mem_map] at hy
      obtain ⟨u, hu, rfl⟩ := hy
      rw [hz u (List.mem_of_mem_drop (List.mem_of_mem_take hu)), mul_zero]
    rw [listMean, hsum, zero_div, zero_add,
      show (1 : ℝ) / 10 ^ 12 = (1 / 10 ^ 6) ^ 2 by norm_num,
      Real.sqrt_sq (by norm_num)]
  rw [List.map_congr_left h, List.map_const', List.length_range]

lemma npVar_replicate (m : ℕ) (c : ℝ) : npVar (List.replicate m c) = 0 := by
  cases m with
  | zero => simp [npVar, listMean]
  | succ k =>
      have hμ : listMean (List.replicate (k + 1) c) = c := by
        rw [listMean, List.sum_replicate, List.length_replicate]
        rw [nsmul_eq_mul]
        field_simp
      rw [npVar, hμ, List.map_replicate]
      simp [listMean]

lemma window_cex_rms2 :
    windowRmsList windowCexList 2 10 1 = List.replicate 10 (1 / 10 ^ 6) := by
  have h := rms_all_zero windowCexList 2 10 1 (by
    intro v hv
    have h4 : (windowCexList.drop 2).take 10 = List.replicate 10 (0 : ℝ) := rfl
    rw [h4] at hv
    exact List.eq_of_mem_replicate hv)
  rwa [show ((windowCexList.drop 2).take 10).length / 1 = 10 from rfl] at h

lemma window_cex_v2 : npVar (windowRmsList windowCexList 2 10 1) = 0 := by
  rw [window_cex_rms2, npVar_replicate]

lemma window_cex_rms3 :
    windowRmsList windowCexList 3 10 1 =
      [1 / 10 ^ 6, 1 / 10 ^ 6, 1 / 10 ^ 6, 1 / 10 ^ 6, 1 / 10 ^ 6, 1 / 10 ^ 6,
        1 / 10 ^ 6, 1 / 10 ^ 6, 1 / 10 ^ 6, Real.sqrt 2 / 10 ^ 6] := by
  rw [windowRmsList,
    show ((windowCexList.drop 3).take 10).length / 1 = 10 from rfl,
    show List.range 10 = [0, 1, 2, 3, 4, 5, 6, 7, 8, 9] from rfl]
  simp only [List.map_cons, List.map_nil, List.cons.injEq, and_true]
  have hzero : ∀ j : ℕ, j ≤ 8 →
      (((windowCexList.drop 3).take 10).drop (j * 1)).take 1 = [(0 : ℝ)] := by
    intro j hj
    interval_cases j <;> rfl
  have hone : Real.sqrt (listMean [(0 : ℝ) * 0] + 1 / 10 ^ 12) = 1 / 10 ^ 6 := by
    rw [show (0 : ℝ) * 0 = 0 by ring, listMean_singleton, zero_add,
      show (1 : ℝ) / 10 ^ 12 = (1 / 10 ^ 6) ^ 2 by norm_num,
      Real.sqrt_sq (by norm_num)]
  have hlast : Real.sqrt (listMean [(1 / 10 ^ 6 : ℝ) * (1 / 10 ^ 6)] + 1 / 10 ^ 12) =
      Real.sqrt 2 / 10 ^ 6 := by
    rw [listMean_singleton,
      show (1 / 10 ^ 6 : ℝ) * (1 / 10 ^ 6) + 1 / 10 ^ 12 = 2 * (1 / 10 ^ 6) ^ 2 by norm_num,
      Real.sqrt_mul (by norm_num) _, Real.sqrt_sq (by norm_num)]
    ring
  refine ⟨?_, ?_, ?_, ?_, ?_, ?_, ?_, ?_, ?_, ?_⟩
  · rw [show ((((windowCexList.drop 3).take 10).drop (0 * 1)).take 1).map
        (fun v => v * v) = [(0 : ℝ) * 0] by rw [hzero 0 (by omega)]; rfl]
    exact hone
  · rw [show ((((windowCexList.drop 3).take 10).drop (1 * 1)).take 1).map
        (fun v => v * v) = [(0 : ℝ) * 0] by rw [hzero 1 (by omega)]; rfl]
    exact hone
  · rw [show ((((windowCexList.drop 3).take 10).drop (2 * 1)).take 1).map
        (fun v => v * v) = [(0 : ℝ) * 0] by rw [hzero 2 (by omega)]; rfl]
    exact hone
  · rw [show ((((windowCexList.drop 3).take 10).drop (3 * 1)).take 1).map
        (fun v => v * v) = [(0 : ℝ) * 0] by rw [hzero 3 (by omega)]; rfl]
    exact hone
  · rw [show ((((windowCexList.drop 3).take 10).drop (4 * 1)).take 1).map
        (fun v => v * v) = [(0 : ℝ) * 0] by rw [hzero 4 (by omega)]; rfl]
    exact hone
  · rw [show ((((windowCexList.drop 3).take 10).drop (5 * 1)).take 1).map
        (fun v => v * v) = [(0 : ℝ) * 0] by rw [hzero 5 (by omega)]; rfl]
    exact hone
  · rw [show ((((windowCexList.drop 3).take 10).drop (6 * 1)).take 1).map
        (fun v => v * v) = [(0 : ℝ) * 0] by rw [hzero 6 (by omega)]; rfl]
    exact hone
  · rw [show ((((windowCexList.drop 3).take 10).drop (7 * 1)).take 1).map
        (fun v => v * v) = [(0 : ℝ) * 0] by rw [hzero 7 (by omega)]; rfl]
    exact hone
  · rw [show ((((windowCexList.drop 3).take 10).drop (8 * 1)).take 1).map
        (fun v => v * v) = [(0 : ℝ) * 0] by rw [hzero 8 (by omega)]; rfl]
    exact hone
  · rw [show ((((windowCexList.drop 3).take 10).drop (9 * 1)).take 1).map
        (fun v => v * v) = [(1 / 10 ^ 6 : ℝ) * (1 / 10 ^ 6)] from rfl]
    exact hlast

lemma sqrt2_gt_one : (1 : ℝ) < Real.sqrt 2 := by
  nlinarith [Real.sq_sqrt (show (0 : ℝ) ≤ 2 by norm_num), Real.sqrt_nonneg 2]

lemma sqrt2_lt : Real.sqrt 2 < 3 / 2 := by
  nlinarith [Real.sq_sqrt (show (0 : ℝ) ≤ 2 by norm_num), Real.sqrt_nonneg 2]

lemma window_cex_v3_eq :
    npVar (windowRmsList windowCexList 3 10 1) = (27 - 18 * Real.sqrt 2) / 10 ^ 14 := by
  have hsq : Real.sqrt 2 ^ 2 = 2 := Real.sq_sqrt (by norm_num)
  rw [window_cex_rms3]
  simp only [npVar, listMean, List.map_cons, List.map_nil, List.sum_cons, List.sum_nil,
    List.length_cons, List.length_nil]
  push_cast
  ring_nf
  nlinarith [hsq, Real.sqrt_nonneg 2]

lemma window_cex_v3_pos : 0 < npVar (windowRmsList windowCexList 3 10 1) := by
  rw [window_cex_v3_eq]
  have h : 0 < 27 - 18 * Real.sqrt 2 := by nlinarith [sqrt2_lt]
  positivity

lemma window_cex_v3_small :
    npVar (windowRmsList windowCexList 3 10 1) < 1 / 10 ^ 12 := by
  rw [window_cex_v3_eq, div_lt_div_iff (by norm_num) (by norm_num)]
  nlinarith [sqrt2_gt_one]

lemma window_cex_pick : (pickStableWindow windowCexList 10).1 = 3 := by
  have hlen : windowCexList.length = 13 := rfl
  rw [pickStableWindow, if_neg (by rw [hlen]; norm_num)]
  show pickBestStart windowCexList 10 = 3
  rw [pickBestStart, hlen,
    show windowLen 10 13 = 10 from rfl,
    show min (10 / 5) 13 = 2 from rfl,
    show max 1 (10 / 20) = 1 from rfl,
    show scanStarts 2 13 10 1 = [2, 3] from rfl,
    pickWindowScan, List.foldl_cons, List.foldl_cons, List.foldl_nil]
  have hstep1 : scanStep windowCexList 10 1 (2, none) 2 =
      (2, some (npVar (windowRmsList windowCexList 2 10 1))) := by
    rw [scanStep,
      if_neg (by rw [show ((windowCexList.drop 2).take 10).length = 10 from rfl]; omega),
      if_pos (scanUpdate_none _ _ _)]
  rw [hstep1]
  have hstep2 : scanStep windowCexList 10 1
      (2, some (npVar (windowRmsList windowCexList 2 10 1))) 3 =
      (3, some (npVar (windowRmsList windowCexList 3 10 1))) := by
    rw [scanStep,
      if_neg (by rw [show ((windowCexList.drop 3).take 10).length = 10 from rfl]; omega),
      if_pos ?_]
    rw [window_cex_v2, scanUpdate_some]
    refine Or.inr ⟨?_, by omega⟩
    rw [sub_zero, abs_of_pos window_cex_v3_pos]
    exact window_cex_v3_small
  rw [hstep2]

/-- C8 counterexample: at `sr = 10` on `windowCexList`, the scan visits starts 2
and 3; start 2 has strictly smaller RMS variance (zero) than start 3 (positive,
but within the 1e-12 slack), yet the selector returns start 3 — so the returned
start is NOT the one of minimal variance and the strictly-lower-variance
candidate did not win. -/
theorem window_minvar_cex :
    scanStarts 2 13 10 1 = [2, 3] ∧
    windowCexList.length = 13 ∧
    npVar (windowRmsList windowCexList 2 10 1) <
      npVar (windowRmsList windowCexList 3 10 1) ∧
    (pickStableWindow windowCexList 10).1 = 3 := by
  refine ⟨rfl, rfl, ?_, window_cex_pick⟩
  rw [window_cex_v2]
  exact window_cex_v3_pos

/-! ## Pitch tracker (build_dataset.py lines 228–289) -/

/-- `np.hanning(M) = 0.5 - 0.5*cos(2*pi*n/(M-1))`, `n = 0..M-1`.  (numpy
special-cases `M = 1`; the pipeline only uses `M ≥ 1024`.) -/
noncomputable def hanning (M : ℕ) : List ℝ :=
  (List.range M).map fun n => 1 / 2 - 1 / 2 * Real.cos (2 * π * n / ((M : ℝ) - 1))

/-- `np.correlate(frame, frame, "full")[frame_size-1:]` at lag `τ`. -/
noncomputable def autocorrAt (fr : List ℝ) (τ : ℕ) : ℝ :=
  ∑ t ∈ Finset.range (fr.length - τ), fr.getD t 0 * fr.getD (t + τ) 0

/-- `np.argmax`: index of the first maximum. -/
noncomputable def npArgmax (xs : List ℝ) : ℕ :=
  xs.findIdx fun v => @decide (∀ u ∈ xs, u ≤ v) (Classical.propDecidable _)

/-- `np.clip(v, lo, hi)`. -/
noncomputable def npClip (v lo hi : ℝ) : ℝ := min (max v lo) hi

/-- `np.median`: middle element (or mean of the middle two) of the sorted list. -/
noncomputable def npMedian (xs : List ℝ) : ℝ :=
  if xs.length % 2 = 1 then (xs.insertionSort (· ≤ ·)).getD (xs.length / 2) 0
  else ((xs.insertionSort (· ≤ ·)).getD (xs.length / 2 - 1) 0 +
    (xs.insertionSort (· ≤ ·)).getD (xs.length / 2) 0) / 2

/-- One frame of `_estimate_f0_acf_with_meta`: Hann window, mean removal,
normalized autocorrelation, argmax over lags `[lmin, lmax)`; `none` models the
two `continue` branches (non-positive zero-lag energy, empty search slice). -/
noncomputable def frameEstimate (sr lmin lmax : ℕ) (raw : List ℝ) :
    Option (ℝ × ℝ × ℕ) :=
  let windowed := List.zipWith (· * ·) raw (hanning raw.length)
  let fr := windowed.map fun v => v - listMean windowed
  if autocorrAt fr 0 ≤ 0 then none
  else if lmax - lmin = 0 then none
  else
    let ac := fun τ : ℕ => autocorrAt fr τ / (autocorrAt fr 0 + 1 / 10 ^ 12)
    let lag := lmin + npArgmax ((List.range' lmin (lmax - lmin)).map ac)
    some ((sr : ℝ) / (lag : ℝ), npClip (ac lag) 0 1, lag)

/-- Frame start offsets `range(0, n - frame_size + 1, hop)`. -/
def frameStarts (n frame_size hop : ℕ) : List ℕ :=
  if frame_size ≤ n then (List.range ((n - frame_size) / hop + 1)).map (· * hop)
  else []

/-- `frame_size = max(1024, int(0.046 * sr))`. -/
def f0FrameSize (sr : ℕ) : ℕ := max 1024 (46 * sr / 1000)

/-- `hop = max(256, frame_size // 4)`. -/
def f0Hop (sr : ℕ) : ℕ := max 256 (f0FrameSize sr / 4)

/-- `lmin = max(1, int(math.floor(sr / max_hz)))`. -/
noncomputable def f0Lmin (sr : ℕ) (max_hz : ℝ) : ℕ :=
  max 1 (⌊(sr : ℝ) / max_hz⌋.toNat)

/-- `lmax = min(frame_size - 1, int(math.ceil(sr / min_hz)))`. -/
noncomputable def f0Lmax (sr : ℕ) (min_hz : ℝ) : ℕ :=
  min (f0FrameSize sr - 1) (⌈(sr : ℝ) / min_hz⌉.toNat)

/-- Zero-pad a too-short input up to one full frame. -/
noncomputable def f0Padded (x : List ℝ) (sr : ℕ) : List ℝ :=
  if x.length < f0FrameSize sr then
    x ++ List.replicate (f0FrameSize sr - x.length) 0
  else x

/-- The per-frame estimates surviving the `continue` branches. -/
noncomputable def f0FrameResults (x : List ℝ) (sr lmin lmax frame_size hop : ℕ) :
    List (ℝ × ℝ × ℕ) :=
  (frameStarts x.length frame_size hop).filterMap fun s =>
    frameEstimate sr lmin lmax ((x.drop s).take frame_size)

/-- Pitch-tracker metadata (`lmin, lmax, frame_size, hop, median_lag, notes`). -/
structure F0Meta where
  lmin : ℕ
  lmax : ℕ
  frame_size : ℕ
  hop : ℕ
  median_lag : ℤ
  notes : List String

/-- The two `ValueError`s of `_estimate_f0_acf_with_meta`; the lag-window error
carries the numeric parameters interpolated into the message. -/
inductive F0Error where
  | invalidLagWindow (lmin lmax frame_size sr : ℕ) (min_hz max_hz : ℝ)
  | unableToEstimate

/-- `_estimate_f0_acf_with_meta(x, sr, min_hz, max_hz)`. -/
noncomputable def estimateF0AcfWithMeta (x : List ℝ) (sr : ℕ)
    (min_hz : ℝ := MIN_F0_HZ) (max_hz : ℝ := MAX_F0_HZ) :
    Except F0Error (List ℝ × List ℝ × F0Meta) :=
  if f0Lmax sr min_hz ≤ f0Lmin sr max_hz then
    .error (.invalidLagWindow (f0Lmin sr max_hz) (f0Lmax sr min_hz) (f0FrameSize sr)
      sr min_hz max_hz)
  else if (f0FrameResults (f0Padded x sr) sr (f0Lmin sr max_hz) (f0Lmax sr min_hz)
      (f0FrameSize sr) (f0Hop sr)).isEmpty then
    .error .unableToEstimate
  else
    .ok ((f0FrameResults (f0Padded x sr) sr (f0Lmin sr max_hz) (f0Lmax sr min_hz)
        (f0FrameSize sr) (f0Hop sr)).map fun r => r.1,
      (f0FrameResults (f0Padded x sr) sr (f0Lmin sr max_hz) (f0Lmax sr min_hz)
        (f0FrameSize sr) (f0Hop sr)).map fun r => r.2.1,
      ⟨f0Lmin sr max_hz, f0Lmax sr min_hz, f0FrameSize sr, f0Hop sr,
        ⌊npMedian ((f0FrameResults (f0Padded x sr) sr (f0Lmin sr max_hz)
          (f0Lmax sr min_hz) (f0FrameSize sr) (f0Hop sr)).map fun r => ((r.2.2 : ℕ) : ℝ))⌋,
        if x.length < f0FrameSize sr then
          ["short audio; frame was zero-padded for f0 tracking"] else []⟩)

lemma f0Padded_idem (x : List ℝ) (sr : ℕ) (h : x.length < f0FrameSize sr) :
    f0Padded (f0Padded x sr) sr = f0Padded x sr := by
  have hlen : (f0Padded x sr).length = f0FrameSize sr := by
    rw [f0Padded, if_pos h, List.length_append, List.length_replicate]
    omega
  rw [f0Padded, hlen, if_neg (lt_irrefl _)]

/-- C6: the Pitch Tracker errors with the parameter-carrying lag-window error
exactly when `lmax ≤ lmin`; when the lag window is sound it errors (rather than
returning zero) exactly when no frame yields an estimate; and an input shorter
than one frame is zero-padded to exactly one full frame and analyzed like the
padded signal rather than rejected. -/
theorem pitch_tracker_errors (x : List ℝ) (sr : ℕ) (min_hz max_hz : ℝ) :
    (estimateF0AcfWithMeta x sr min_hz max_hz =
        .error (.invalidLagWindow (f0Lmin sr max_hz) (f0Lmax sr min_hz) (f0FrameSize sr)
          sr min_hz max_hz) ↔ f0Lmax sr min_hz ≤ f0Lmin sr max_hz) ∧
    (f0Lmin sr max_hz < f0Lmax sr min_hz →
      (estimateF0AcfWithMeta x sr min_hz max_hz = .error .unableToEstimate ↔
        f0FrameResults (f0Padded x sr) sr (f0Lmin sr max_hz) (f0Lmax sr min_hz)
          (f0FrameSize sr) (f0Hop sr) = [])) ∧
    (x.length < f0FrameSize sr →
      (f0Padded x sr = x ++ List.replicate (f0FrameSize sr - x.length) 0 ∧
        (f0Padded x sr).length = f0FrameSize sr ∧
        ∀ e, (estimateF0AcfWithMeta x sr min_hz max_hz = .error e ↔
          estimateF0AcfWithMeta (f0Padded x sr) sr min_hz max_hz = .error e))) := by
  refine ⟨?_, ?_, ?_⟩
  · rw [estimateF0AcfWithMeta]
    split_ifs with h1 h2
    · simp [h1]
    · simp only [Except.error.injEq]
      constructor
      · intro h
        exact absurd h (by simp)
      · intro h
        omega
    · constructor
      · intro h
        exact absurd h (by simp)
      · intro h
        omega
  · intro hlt
    rw [estimateF0AcfWithMeta, if_neg (by omega)]
    split_ifs with h2
    · simp only [List.isEmpty_iff] at h2
      simp [h2]
    · simp only [List.isEmpty_iff] at h2
      constructor
      · intro h
        exact absurd h (by simp)
      · intro h
        exact absurd h h2
  · intro hshort
    refine ⟨by rw [f0Padded, if_pos hshort], ?_, ?_⟩
    · rw [f0Padded, if_pos hshort, List.length_append, List.length_replicate]
      omega
    · intro e
      rw [estimateF0AcfWithMeta, estimateF0AcfWithMeta, f0Padded_idem x sr hshort]
      split_ifs with h1 h2
      · exact Iff.rfl
      · exact Iff.rfl
      · constructor
        · intro h
          exact absurd h (by simp)
        · intro h
          exact absurd h (by simp)

/-- Witness for C6 at the empty waveform, `sr = 48000`, default bounds. -/
theorem pitch_tracker_errors_witness :
    (estimateF0AcfWithMeta [] 48000 MIN_F0_HZ MAX_F0_HZ =
        .error (.invalidLagWindow (f0Lmin 48000 MAX_F0_HZ) (f0Lmax 48000 MIN_F0_HZ)
          (f0FrameSize 48000) 48000 MIN_F0_HZ MAX_F0_HZ) ↔
        f0Lmax 48000 MIN_F0_HZ ≤ f0Lmin 48000 MAX_F0_HZ) ∧
    (f0Lmin 48000 MAX_F0_HZ < f0Lmax 48000 MIN_F0_HZ →
      (estimateF0AcfWithMeta [] 48000 MIN_F0_HZ MAX_F0_HZ = .error .unableToEstimate ↔
        f0FrameResults (f0Padded [] 48000) 48000 (f0Lmin 48000 MAX_F0_HZ)
          (f0Lmax 48000 MIN_F0_HZ) (f0FrameSize 48000) (f0Hop 48000) = [])) ∧
    (([] : List ℝ).length < f0FrameSize 48000 →
      (f0Padded [] 48000 = [] ++ List.replicate (f0FrameSize 48000 - ([] : List ℝ).length) 0 ∧
        (f0Padded [] 48000).length = f0FrameSize 48000 ∧
        ∀ e, (estimateF0AcfWithMeta [] 48000 MIN_F0_HZ MAX_F0_HZ = .error e ↔
          estimateF0AcfWithMeta (f0Padded [] 48000) 48000 MIN_F0_HZ MAX_F0_HZ =
            .error e))) :=
  pitch_tracker_errors [] 48000 MIN_F0_HZ MAX_F0_HZ

/-! ## Partial analyzer (build_dataset.py lines 336–392) -/

/-- `MAX_FFT` from the source. -/
def MAX_FFT : ℕ := 262144

/-- `fft_n = min(1 << ceil(log2(max(2, n))), MAX_FFT)`. -/
def fftLen (n : ℕ) : ℕ := min (2 ^ Nat.clog 2 (max 2 n)) MAX_FFT

/-- Zero-pad (`np.pad`) or truncate to `m` samples. -/
noncomputable def padTo (x : List ℝ) (m : ℕ) : List ℝ :=
  if x.length < m then x ++ List.replicate (m - x.length) 0 else x.take m

/-- `np.abs(np.fft.rfft(x))`: DFT magnitudes at bins `k = 0..n/2`. -/
noncomputable def dftMagnitude (x : List ℝ) : List ℝ :=
  (List.range (x.length / 2 + 1)).map fun k =>
    Complex.abs (∑ t ∈ Finset.range x.length,
      (x.getD t 0 : ℂ) * Complex.exp (-(2 * Real.pi * Complex.I * k * t) / x.length))

/-- `np.fft.rfftfreq(n, d=1/sr)`: bin frequencies `k*sr/n`. -/
noncomputable def rfftfreq (n sr : ℕ) : List ℝ :=
  (List.range (n / 2 + 1)).map fun k => (k : ℝ) * sr / n

/-- The Hann-windowed, length-adjusted input. -/
noncomputable def partialsWindowed (x : List ℝ) : List ℝ :=
  List.zipWith (· * ·) (padTo x (fftLen x.length))
    (hanning (padTo x (fftLen x.length)).length)

/-- Frequency/magnitude pairs surviving the `freqs >= 20.0` validity filter. -/
noncomputable def partialsPairs (x : List ℝ) (sr : ℕ) : List (ℝ × ℝ) :=
  ((rfftfreq (padTo x (fftLen x.length)).length sr).zip
    (dftMagnitude (partialsWindowed x))).filter fun fm => decide (20 ≤ fm.1)

/-- `freqs_valid`. -/
noncomputable def partialsFreqsValid (x : List ℝ) (sr : ℕ) : List ℝ :=
  (partialsPairs x sr).map Prod.fst

/-- `mag_valid`. -/
noncomputable def partialsMagValid (x : List ℝ) (sr : ℕ) : List ℝ :=
  (partialsPairs x sr).map Prod.snd

/-- `mag_db = 20*log10(np.maximum(mag_valid, 1e-12))`. -/
noncomputable def partialsMagDb (x : List ℝ) (sr : ℕ) : List ℝ :=
  (partialsMagValid x sr).map fun m => 20 * Real.logb 10 (max m (1 / 10 ^ 12))

/-- scipy peak prominence: peak height minus the higher of the two flanking-stretch
minima (stretches run until a strictly higher sample or the signal edge). -/
noncomputable def peakProminence (xs : List ℝ) (i : ℕ) : ℝ :=
  xs.getD i 0 - max
    (((xs.take i).reverse.takeWhile fun u => decide (u ≤ xs.getD i 0)).foldr
      min (xs.getD i 0))
    (((xs.drop (i + 1)).takeWhile fun u => decide (u ≤ xs.getD i 0)).foldr
      min (xs.getD i 0))

/-- `scipy.signal.find_peaks(xs, prominence=pmin)`: interior strict local maxima
whose prominence reaches `pmin` (plateau handling elided; no plateaus matter for
the claims, which either hypothesize emptiness or hold for any index set). -/
noncomputable def findPeaksIdx (xs : List ℝ) (pmin : ℝ) : List ℕ :=
  (List.range xs.length).filter fun i =>
    decide (0 < i ∧ i + 1 < xs.length ∧ xs.getD (i - 1) 0 < xs.getD i 0 ∧
      xs.getD (i + 1) 0 < xs.getD i 0 ∧ pmin ≤ peakProminence xs i)

/-- Index comparison by value, for `np.argsort`. -/
def idxLE (vals : List ℝ) (i j : ℕ) : Prop := vals.getD i 0 ≤ vals.getD j 0

instance (vals : List ℝ) : IsTotal ℕ (idxLE vals) := ⟨fun _ _ => le_total _ _⟩

instance (vals : List ℝ) : IsTrans ℕ (idxLE vals) := ⟨fun _ _ _ => le_trans⟩

noncomputable instance (vals : List ℝ) : DecidableRel (idxLE vals) :=
  fun _ _ => Classical.propDecidable _

/-- `np.argsort(vals)`: indices `0..len-1` sorted ascending by value. -/
noncomputable def argsortAsc (vals : List ℝ) : List ℕ :=
  (List.range vals.length).insertionSort (idxLE vals)

/-- `peaks_idx` after the fallback branch: the found peaks, or (when none clears
the prominence bar) `np.argsort(mag_valid)[-min(MAX_PEAKS, size):]`. -/
noncomputable def partialsPeaksIdx (x : List ℝ) (sr : ℕ) : List ℕ :=
  if (findPeaksIdx (partialsMagDb x sr) PROMINENCE_DB).length = 0 then
    (argsortAsc (partialsMagValid x sr)).drop
      ((partialsMagValid x sr).length - min MAX_PEAKS (partialsMagValid x sr).length)
  else findPeaksIdx (partialsMagDb x sr) PROMINENCE_DB

/-- `prominences`: all ones in the fallback branch, else the scipy prominences
aligned with `peaks_idx`. -/
noncomputable def partialsProminences (x : List ℝ) (sr : ℕ) : List ℝ :=
  if (findPeaksIdx (partialsMagDb x sr) PROMINENCE_DB).length = 0 then
    (partialsPeaksIdx x sr).map fun _ => 1
  else (findPeaksIdx (partialsMagDb x sr) PROMINENCE_DB).map
    (peakProminence (partialsMagDb x sr))

/-- `np.max` with a default for the empty list. -/
noncomputable def listMaxD (xs : List ℝ) (d : ℝ) : ℝ :=
  match xs with
  | [] => d
  | a :: t => t.foldl max a

/-- `mag_db[peaks_idx]`: the magnitudes at the peak positions. -/
noncomputable def partialsVals (x : List ℝ) (sr : ℕ) : List ℝ :=
  (partialsPeaksIdx x sr).map fun i => (partialsMagDb x sr).getD i 0

/-- `order = np.argsort(mag_db[peaks_idx])[::-1][:MAX_PEAKS]`. -/
noncomputable def partialsOrder (x : List ℝ) (sr : ℕ) : List ℕ :=
  ((argsortAsc (partialsVals x sr)).reverse).take MAX_PEAKS

/-- Build one output peak entry for position `k` of the argsort order. -/
noncomputable def mkPeakEntry (x : List ℝ) (sr : ℕ) (f0_hz : ℝ) (k : ℕ) : SpectralPeak :=
  { hz := (partialsFreqsValid x sr).getD ((partialsPeaksIdx x sr).getD k 0) 0
    rel_amp_db := (partialsMagDb x sr).getD ((partialsPeaksIdx x sr).getD k 0) 0 -
      listMaxD (partialsMagDb x sr) 0
    peak_confidence := npClip ((if k < (partialsProminences x sr).length then
        (partialsProminences x sr).getD k 0 else 1) / (PROMINENCE_DB * 2)) 0 1
    harmonic_index_guess :=
      if pyRound ((partialsFreqsValid x sr).getD ((partialsPeaksIdx x sr).getD k 0) 0 /
            max f0_hz (1 / 10 ^ 6)) < 1 ∨
          3 / 100 < |(partialsFreqsValid x sr).getD ((partialsPeaksIdx x sr).getD k 0) 0 /
              max f0_hz (1 / 10 ^ 6) -
            (pyRound ((partialsFreqsValid x sr).getD ((partialsPeaksIdx x sr).getD k 0) 0 /
              max f0_hz (1 / 10 ^ 6)) : ℝ)| /
            (pyRound ((partialsFreqsValid x sr).getD ((partialsPeaksIdx x sr).getD k 0) 0 /
              max f0_hz (1 / 10 ^ 6)) : ℝ) then none
      else some (pyRound ((partialsFreqsValid x sr).getD ((partialsPeaksIdx x sr).getD k 0) 0 /
        max f0_hz (1 / 10 ^ 6))) }

/-- `_analyze_partials(x, sr, f0_hz)`: `(peaks, summary)`. -/
noncomputable def analyzePartials (x : List ℝ) (sr : ℕ) (f0_hz : ℝ) :
    List SpectralPeak × List SpectralPeak :=
  if (partialsMagValid x sr).length = 0 then ([], [])
  else
    ((partialsOrder x sr).map (mkPeakEntry x sr f0_hz),
      ((partialsOrder x sr).map (mkPeakEntry x sr f0_hz)).take SUMMARY_PEAKS)

lemma pairFst (a b : List SpectralPeak) : (a, b).1 = a := rfl

lemma pairSnd (a b : List SpectralPeak) : (a, b).2 = b := rfl

lemma analyzePartials_eq_neg (x : List ℝ) (sr : ℕ) (f0_hz : ℝ)
    (h : ¬ (partialsMagValid x sr).length = 0) :
    analyzePartials x sr f0_hz =
      ((partialsOrder x sr).map (mkPeakEntry x sr f0_hz),
        ((partialsOrder x sr).map (mkPeakEntry x sr f0_hz)).take SUMMARY_PEAKS) := by
  rw [analyzePartials]
  rw [if_neg h]

lemma analyzePartials_eq_pos (x : List ℝ) (sr : ℕ) (f0_hz : ℝ)
    (h : (partialsMagValid x sr).length = 0) :
    analyzePartials x sr f0_hz = ([], []) := by
  rw [analyzePartials]
  rw [if_pos h]

lemma analyzePartials_fst_neg (x : List ℝ) (sr : ℕ) (f0_hz : ℝ)
    (h : ¬ (partialsMagValid x sr).length = 0) :
    (analyzePartials x sr f0_hz).1 = (partialsOrder x sr).map (mkPeakEntry x sr f0_hz) :=
  (congrArg Prod.fst (analyzePartials_eq_neg x sr f0_hz h)).trans (pairFst _ _)

lemma analyzePartials_snd_neg (x : List ℝ) (sr : ℕ) (f0_hz : ℝ)
    (h : ¬ (partialsMagValid x sr).length = 0) :
    (analyzePartials x sr f0_hz).2 =
      ((partialsOrder x sr).map (mkPeakEntry x sr f0_hz)).take SUMMARY_PEAKS :=
  (congrArg Prod.snd (analyzePartials_eq_neg x sr f0_hz h)).trans (pairSnd _ _)

lemma analyzePartials_fst_pos (x : List ℝ) (sr : ℕ) (f0_hz : ℝ)
    (h : (partialsMagValid x sr).length = 0) :
    (analyzePartials x sr f0_hz).1 = [] :=
  (congrArg Prod.fst (analyzePartials_eq_pos x sr f0_hz h)).trans (pairFst _ _)

lemma analyzePartials_snd_pos (x : List ℝ) (sr : ℕ) (f0_hz : ℝ)
    (h : (partialsMagValid x sr).length = 0) :
    (analyzePartials x sr f0_hz).2 = [] :=
  (congrArg Prod.snd (analyzePartials_eq_pos x sr f0_hz h)).trans (pairSnd _ _)


lemma partialsOrder_mem_lt (x : List ℝ) (sr : ℕ) (k : ℕ)
    (hk : k ∈ partialsOrder x sr) : k < (partialsVals x sr).length := by
  rw [partialsOrder] at hk
  have h1 : k ∈ (argsortAsc (partialsVals x sr)).reverse := List.mem_of_mem_take hk
  rw [List.mem_reverse, argsortAsc] at h1
  exact List.mem_range.mp ((List.mem_insertionSort (idxLE (partialsVals x sr))).mp h1)

lemma partialsVals_getD (x : List ℝ) (sr : ℕ) (k : ℕ)
    (hk : k < (partialsVals x sr).length) :
    (partialsVals x sr).getD k 0 =
      (partialsMagDb x sr).getD ((partialsPeaksIdx x sr).getD k 0) 0 := by
  have hk2 : k < (partialsPeaksIdx x sr).length := by
    rw [partialsVals, List.length_map] at hk
    exact hk
  rw [partialsVals]
  rw [List.getD_eq_getElem _ _ (by rw [List.length_map]; exact hk2), List.getElem_map,
    List.getD_eq_getElem _ _ hk2]

/-- C7: the full peak list is sorted by descending magnitude (equivalently by
descending `rel_amp_db`, which is the magnitude shifted by the fixed maximum),
holds at most `MAX_PEAKS = 60` entries, and the summary is exactly its first
`SUMMARY_PEAKS = 12` entries. -/
theorem partials_sorted_capped (x : List ℝ) (sr : ℕ) (f0_hz : ℝ) :
    (analyzePartials x sr f0_hz).1.Sorted (fun a b => b.rel_amp_db ≤ a.rel_amp_db) ∧
    (analyzePartials x sr f0_hz).1.length ≤ MAX_PEAKS ∧
    (analyzePartials x sr f0_hz).2 = (analyzePartials x sr f0_hz).1.take SUMMARY_PEAKS := by
  by_cases h : (partialsMagValid x sr).length = 0
  · refine ⟨?_, ?_, ?_⟩
    · rw [analyzePartials_fst_pos x sr f0_hz h]
      exact List.sorted_nil
    · rw [analyzePartials_fst_pos x sr f0_hz h]
      simp [MAX_PEAKS]
    · rw [analyzePartials_snd_pos x sr f0_hz h, analyzePartials_fst_pos x sr f0_hz h]
      rfl
  · refine ⟨?_, ?_, ?_⟩
    · rw [analyzePartials_fst_neg x sr f0_hz h]
      rw [List.Sorted, List.pairwise_map]
      have h1 : (argsortAsc (partialsVals x sr)).Pairwise (idxLE (partialsVals x sr)) :=
        List.sorted_insertionSort _ _
      have h2 : ((argsortAsc (partialsVals x sr)).reverse).Pairwise
          (fun i j => idxLE (partialsVals x sr) j i) := List.pairwise_reverse.mpr h1
      have h3 : (partialsOrder x sr).Pairwise
          (fun i j => idxLE (partialsVals x sr) j i) := by
        rw [partialsOrder]
        exact List.Pairwise.sublist (List.take_sublist _ _) h2
      refine h3.imp_of_mem ?_
      intro a b ha hb hab
      have hva := partialsVals_getD x sr a (partialsOrder_mem_lt x sr a ha)
      have hvb := partialsVals_getD x sr b (partialsOrder_mem_lt x sr b hb)
      rw [idxLE, hva, hvb] at hab
      show (partialsMagDb x sr).getD ((partialsPeaksIdx x sr).getD b 0) 0 -
          listMaxD (partialsMagDb x sr) 0 ≤
        (partialsMagDb x sr).getD ((partialsPeaksIdx x sr).getD a 0) 0 -
          listMaxD (partialsMagDb x sr) 0
      linarith
    · rw [analyzePartials_fst_neg x sr f0_hz h]
      rw [List.length_map, partialsOrder, List.length_take]
      exact min_le_left _ _
    · rw [analyzePartials_snd_neg x sr f0_hz h, analyzePartials_fst_neg x sr f0_hz h]

lemma partialsFreqsValid_ge (x : List ℝ) (sr : ℕ) (f : ℝ)
    (hf : f ∈ partialsFreqsValid x sr) : 20 ≤ f := by
  rw [partialsFreqsValid, List.mem_map] at hf
  obtain ⟨fm, hfm, rfl⟩ := hf
  rw [partialsPairs, List.mem_filter] at hfm
  exact of_decide_eq_true hfm.2

lemma partialsFreqsValid_length (x : List ℝ) (sr : ℕ) :
    (partialsFreqsValid x sr).length = (partialsMagValid x sr).length := by
  rw [partialsFreqsValid, partialsMagValid, List.length_map, List.length_map]

/-- The fallback-branch behaviour of `_analyze_partials`, shared by the C4
development below. -/
lemma partials_fallback_core (x : List ℝ) (sr : ℕ) (f0_hz : ℝ)
    (hne : (partialsMagValid x sr).length ≠ 0)
    (hempty : (findPeaksIdx (partialsMagDb x sr) PROMINENCE_DB).length = 0) :
    partialsPeaksIdx x sr = (argsortAsc (partialsMagValid x sr)).drop
      ((partialsMagValid x sr).length - min MAX_PEAKS (partialsMagValid x sr).length) ∧
    partialsProminences x sr = (partialsPeaksIdx x sr).map (fun _ => 1) ∧
    (analyzePartials x sr f0_hz).1.length = min MAX_PEAKS (partialsMagValid x sr).length ∧
    (∀ pk ∈ (analyzePartials x sr f0_hz).1,
      pk.peak_confidence = 1 / 30 ∧ 20 ≤ pk.hz) := by
  have hpi : partialsPeaksIdx x sr = (argsortAsc (partialsMagValid x sr)).drop
      ((partialsMagValid x sr).length - min MAX_PEAKS (partialsMagValid x sr).length) := by
    rw [partialsPeaksIdx, if_pos hempty]
  have hpl : (partialsPeaksIdx x sr).length =
      min MAX_PEAKS (partialsMagValid x sr).length := by
    rw [hpi, List.length_drop, argsortAsc, List.length_insertionSort, List.length_range]
    have := min_le_right MAX_PEAKS (partialsMagValid x sr).length
    omega
  have hvl : (partialsVals x sr).length =
      min MAX_PEAKS (partialsMagValid x sr).length := by
    rw [partialsVals, List.length_map, hpl]
  have hol : (partialsOrder x sr).length =
      min MAX_PEAKS (partialsMagValid x sr).length := by
    rw [partialsOrder, List.length_take, List.length_reverse, argsortAsc,
      List.length_insertionSort, List.length_range, hvl]
    have := min_le_left MAX_PEAKS (partialsMagValid x sr).length
    omega
  have hmem : ∀ pk ∈ (analyzePartials x sr f0_hz).1,
      ∃ k ∈ partialsOrder x sr, pk = mkPeakEntry x sr f0_hz k := by
    intro pk hpk
    rw [analyzePartials_fst_neg x sr f0_hz hne] at hpk
    obtain ⟨k, hk, hpk⟩ := List.mem_map.mp hpk
    exact ⟨k, hk, hpk.symm⟩
  refine ⟨hpi, by rw [partialsProminences, if_pos hempty], ?_, ?_⟩
  · rw [analyzePartials_fst_neg x sr f0_hz hne]
    rw [List.length_map, hol]
  · intro pk hpk
    obtain ⟨k, hk, rfl⟩ := hmem pk hpk
    constructor
    · show npClip ((if k < (partialsProminences x sr).length then
          (partialsProminences x sr).getD k 0 else 1) / (PROMINENCE_DB * 2)) 0 1 = 1 / 30
      have hnum : (if k < (partialsProminences x sr).length then
          (partialsProminences x sr).getD k 0 else 1) = 1 := by
        split_ifs with hk2
        · rw [partialsProminences, if_pos hempty] at hk2 ⊢
          rw [List.getD_eq_getElem _ _ hk2, List.getElem_map]
        · rfl
      rw [hnum, npClip, PROMINENCE_DB]
      norm_num
    · show 20 ≤ (partialsFreqsValid x sr).getD ((partialsPeaksIdx x sr).getD k 0) 0
      have hk' : k < (partialsPeaksIdx x sr).length := by
        have h1 := partialsOrder_mem_lt x sr k hk
        rw [partialsVals, List.length_map] at h1
        exact h1
      have hidx : (partialsPeaksIdx x sr).getD k 0 ∈ partialsPeaksIdx x sr := by
        rw [List.getD_eq_getElem _ _ hk']
        exact List.getElem_mem _
      have hidxlt : (partialsPeaksIdx x sr).getD k 0 <
          (partialsFreqsValid x sr).length := by
        rw [partialsFreqsValid_length]
        nth_rewrite 1 [hpi] at hidx
        have h2 := List.mem_of_mem_drop hidx
        rw [argsortAsc] at h2
        exact List.mem_range.mp ((List.mem_insertionSort _).mp h2)
      apply partialsFreqsValid_ge x sr
      rw [List.getD_eq_getElem _ _ hidxlt]
      exact List.getElem_mem _

/-- C4 (amended): when no peak clears the 15 dB prominence bar and valid bins
exist, the analyzer falls back to the top-`min(60, bins)` raw-magnitude indices
(`np.argsort(mag_valid)` tail), assigns each a PROMINENCE of 1.0, and therefore a
`peak_confidence` of `clip(1.0 / (2*15), 0, 1) = 1/30` (not 1.0); every returned
peak sits on a valid (at least 20 Hz) bin. -/
theorem partials_fallback (x : List ℝ) (sr : ℕ) (f0_hz : ℝ)
    (hne : (partialsMagValid x sr).length ≠ 0)
    (hempty : (findPeaksIdx (partialsMagDb x sr) PROMINENCE_DB).length = 0) :
    partialsPeaksIdx x sr = (argsortAsc (partialsMagValid x sr)).drop
      ((partialsMagValid x sr).length - min MAX_PEAKS (partialsMagValid x sr).length) ∧
    partialsProminences x sr = (partialsPeaksIdx x sr).map (fun _ => 1) ∧
    (analyzePartials x sr f0_hz).1.length = min MAX_PEAKS (partialsMagValid x sr).length ∧
    (∀ pk ∈ (analyzePartials x sr f0_hz).1,
      pk.peak_confidence = 1 / 30 ∧ 20 ≤ pk.hz) :=
  partials_fallback_core x sr f0_hz hne hempty

/-! Concrete evaluation of the partial-analyzer pipeline on the two-sample zero
signal at 48 kHz, driving the C4 fallback branch. -/

lemma partialsCex_fftLen : fftLen ([0, 0] : List ℝ).length = 2 := by
  have h2 : ([0, 0] : List ℝ).length = 2 := rfl
  rw [h2, fftLen, MAX_FFT, Nat.clog_eq_one (by norm_num) (by norm_num)]
  norm_num

lemma partialsCex_padTo : padTo [0, 0] (fftLen ([0, 0] : List ℝ).length) = [0, 0] := by
  rw [partialsCex_fftLen, padTo]
  norm_num

lemma partialsCex_windowed : partialsWindowed [0, 0] = [0, 0] := by
  rw [partialsWindowed, partialsCex_padTo]
  have h2 : ([0, 0] : List ℝ).length = 2 := rfl
  rw [h2, hanning]
  simp [List.range_succ]

lemma partialsCex_dft : dftMagnitude [0, 0] = [0, 0] := by
  simp [dftMagnitude, List.range_succ, Finset.sum_range_succ]

lemma partialsCex_freqs : rfftfreq 2 48000 = [0, 24000] := by
  rw [rfftfreq]
  norm_num [List.range_succ]

lemma partialsCex_pairs : partialsPairs [0, 0] 48000 = [(24000, 0)] := by
  rw [partialsPairs, partialsCex_padTo, partialsCex_windowed, partialsCex_dft]
  have h2 : ([0, 0] : List ℝ).length = 2 := rfl
  rw [h2, partialsCex_freqs]
  rw [List.zip_cons_cons, List.zip_cons_cons, List.zip_nil_left]
  rw [List.filter_cons, List.filter_cons, List.filter_nil]
  rw [if_neg (by simp only [decide_eq_true_eq]; norm_num),
    if_pos (by simp only [decide_eq_true_eq]; norm_num)]

lemma partialsCex_magValid : partialsMagValid [0, 0] 48000 = [0] := by
  rw [partialsMagValid, partialsCex_pairs]
  rfl

lemma partialsCex_ne : (partialsMagValid [0, 0] 48000).length ≠ 0 := by
  rw [partialsCex_magValid]
  norm_num

lemma partialsCex_magDb : partialsMagDb [0, 0] 48000 =
    [20 * Real.logb 10 (max 0 (1 / 10 ^ 12))] := by
  rw [partialsMagDb, partialsCex_magValid, List.map_cons, List.map_nil]

lemma partialsCex_findPeaks :
    findPeaksIdx (partialsMagDb [0, 0] 48000) PROMINENCE_DB = [] := by
  have hl : (partialsMagDb [0, 0] 48000).length = 1 := by
    rw [partialsCex_magDb]
    rfl
  have hr : List.range 1 = [0] := rfl
  rw [findPeaksIdx, hl, hr, List.filter_cons, List.filter_nil]
  rw [if_neg (by simp only [decide_eq_true_eq]; rintro ⟨h1, -⟩; exact absurd h1 (lt_irrefl 0))]

lemma partialsCex_findPeaks_len :
    (findPeaksIdx (partialsMagDb [0, 0] 48000) PROMINENCE_DB).length = 0 := by
  rw [partialsCex_findPeaks]
  rfl

/-- C4 counterexample: on the two-sample zero signal at 48 kHz no peak clears
the 15 dB prominence bar, so the analyzer takes the fallback branch; it returns
a non-empty peak list in which EVERY peak has `peak_confidence` 1/30 — not the
1.0 the claim asserts. -/
theorem partials_conf_cex :
    (findPeaksIdx (partialsMagDb [0, 0] 48000) PROMINENCE_DB).length = 0 ∧
    0 < (analyzePartials [0, 0] 48000 100).1.length ∧
    ∀ pk ∈ (analyzePartials [0, 0] 48000 100).1, pk.peak_confidence ≠ 1 := by
  obtain ⟨-, -, hlen, hconf⟩ :=
    partials_fallback_core [0, 0] 48000 100 partialsCex_ne partialsCex_findPeaks_len
  rw [partialsCex_magValid] at hlen
  refine ⟨partialsCex_findPeaks_len, ?_, fun pk hpk => ?_⟩
  · rw [hlen]
    rw [MAX_PEAKS]
    norm_num
  · rw [(hconf pk hpk).1]
    norm_num

/-- Witness for C4 at the two-sample zero signal, `sr = 48000`, `f0 = 100`. -/
theorem partials_fallback_witness :
    (partialsMagValid [0, 0] 48000).length ≠ 0 ∧
    (findPeaksIdx (partialsMagDb [0, 0] 48000) PROMINENCE_DB).length = 0 ∧
    (partialsPeaksIdx [0, 0] 48000 = (argsortAsc (partialsMagValid [0, 0] 48000)).drop
        ((partialsMagValid [0, 0] 48000).length -
          min MAX_PEAKS (partialsMagValid [0, 0] 48000).length) ∧
      partialsProminences [0, 0] 48000 = (partialsPeaksIdx [0, 0] 48000).map (fun _ => 1) ∧
      (analyzePartials [0, 0] 48000 100).1.length =
        min MAX_PEAKS (partialsMagValid [0, 0] 48000).length ∧
      (∀ pk ∈ (analyzePartials [0, 0] 48000 100).1,
        pk.peak_confidence = 1 / 30 ∧ 20 ≤ pk.hz)) :=
  ⟨partialsCex_ne, partialsCex_findPeaks_len,
    partials_fallback [0, 0] 48000 100 partialsCex_ne partialsCex_findPeaks_len⟩

end Microrimba
